import Mathlib

/-!
Verification of the tenant lifecycle protocol of the organization-management
service (`src/scripts/main.py`).

The service is embedded shallowly: the MongoDB master database becomes a
`DB` record holding the `admins` and `organizations` registry collections,
the dynamically named per-tenant partitions (an association list from
collection name to document list), and a fresh-id counter standing for
MongoDB ObjectId assignment.  Each service operation
(`create_organization`, `get_organization`, `update_organization`,
`delete_organization`, `login`) becomes a pure state-passing function
returning the new database together with an `Except` result, mirroring the
Python control flow line by line; raising an `HTTPException` before any
write corresponds to returning the unchanged state with an error.

The password-hashing primitive (passlib bcrypt) and the JWT signing
primitive (PyJWT HS256) are out-of-scope opaque capabilities per the spec;
they are modelled by concrete executable functions that preserve the
interface properties the service relies on (hash/verify agreement, MAC
check, expiry check).
-/

namespace OrgMgmt

/-- Values stored in a JWT payload field: the service only ever stores
strings and integer timestamps. -/
inductive JVal where
  | str : String → JVal
  | num : Nat → JVal
deriving Repr, DecidableEq

/-- Configuration constant `JWT_SECRET` (main.py line 24, default value). -/
def JWT_SECRET : String := "your-super-secret-jwt-key-change-in-production"

/-- Configuration constant `JWT_EXPIRATION_HOURS = 24` (main.py line 26). -/
def JWT_EXPIRATION_HOURS : Nat := 24

/-- Serialization of a payload value, used by the MAC model. -/
def encodeJVal : JVal → String
  | .str s => "s:" ++ s
  | .num n => "n:" ++ toString n

/-- Serialization of a whole payload, used by the MAC model. -/
def encodeFields (fs : List (String × JVal)) : String :=
  fs.foldl (fun acc kv => acc ++ "|" ++ kv.1 ++ "=" ++ encodeJVal kv.2) ""

/-- A simple deterministic string digest; stands in for the opaque
HMAC-SHA256 primitive used by `jwt.encode`. -/
def strDigest (s : String) : Nat :=
  s.data.foldl (fun a c => a * 131 + c.toNat + 1) 7

/-- Signature of a payload under a secret (model of the opaque HS256
signing capability). -/
def signFields (secret : String) (fs : List (String × JVal)) : Nat :=
  strDigest (secret ++ encodeFields fs)

/-- A bearer token: either a structurally well-formed JWT (an encoded
payload dictionary plus a signature), or an undecodable blob (malformed
header/payload/encoding). -/
inductive Token where
  | jwt : List (String × JVal) → Nat → Token
  | garbage : String → Token
deriving Repr, DecidableEq

/-- Errors raised by `JWTHandler.decode_token` (main.py lines 86-89):
`ExpiredSignatureError` maps to 401 "Token has expired", any other
`InvalidTokenError` maps to 401 "Invalid token". -/
inductive TokenError where
  | expiredToken
  | invalidToken
deriving Repr, DecidableEq

/-- Dictionary lookup in a decoded payload. -/
def lookupField (fs : List (String × JVal)) (k : String) : Option JVal :=
  (fs.find? (fun kv => kv.1 == k)).map Prod.snd

/-- `JWTHandler.create_token` (main.py lines 70-79): payload carries
`admin_id`, `org_id`, `org_name`, `exp = now + 24h`, `iat = now`, signed
with the process-wide secret.  Time is modelled in seconds. -/
def create_token (admin_id org_id org_name : String) (now : Nat) : Token :=
  let fields : List (String × JVal) :=
    [("admin_id", .str admin_id),
     ("org_id", .str org_id),
     ("org_name", .str org_name),
     ("exp", .num (now + JWT_EXPIRATION_HOURS * 3600)),
     ("iat", .num now)]
  .jwt fields (signFields JWT_SECRET fields)

/-- `JWTHandler.decode_token` (main.py lines 81-89), following PyJWT
semantics: an undecodable token or a bad signature raises
`InvalidTokenError`; with a valid signature, a payload whose `exp` claim
is not an integer raises `InvalidTokenError`, and an integer `exp ≤ now`
raises `ExpiredSignatureError`; otherwise the payload dictionary is
returned. -/
def decode_token (now : Nat) : Token → Except TokenError (List (String × JVal))
  | .garbage _ => .error .invalidToken
  | .jwt fields sig =>
    if sig ≠ signFields JWT_SECRET fields then .error .invalidToken
    else
      match lookupField fields "exp" with
      | some (.num e) => if e ≤ now then .error .expiredToken else .ok fields
      | some (.str _) => .error .invalidToken
      | none => .ok fields

/-- `PasswordHandler.hash_password` (main.py lines 59-61): model of the
opaque bcrypt capability; the `$2b$12$` marker mirrors the bcrypt output
format and keeps the digest distinct from the plaintext. -/
def hash_password (password : String) : String :=
  "$2b$12$" ++ password

/-- `PasswordHandler.verify_password` (main.py lines 63-65): model of the
opaque bcrypt verify capability, agreeing with `hash_password`. -/
def verify_password (plain_password hashed_password : String) : Bool :=
  hashed_password == hash_password plain_password

/-- A document of the `admins` registry collection. -/
structure AdminRec where
  id : Nat
  email : String
  password_hash : String
  created_at : Nat
  updated_at : Option Nat
deriving Repr, DecidableEq

/-- A document of the `organizations` registry collection. -/
structure OrgRec where
  id : Nat
  organization_name : String
  collection_name : String
  admin_id : Nat
  admin_email : String
  created_at : Nat
  updated_at : Option Nat
deriving Repr, DecidableEq

/-- A document of a per-tenant partition.  `id` is the storage-assigned
`_id` (absent until the store assigns one), `typ` the `_type` field,
`orgName` the `organization_name` field; `initialized_at`,
`schema_version` and `other` carry the remaining fields. -/
structure PDoc where
  id : Option Nat
  typ : Option String
  orgName : Option String
  initialized_at : Option Nat
  schema_version : Option String
  other : List (String × String)
deriving Repr, DecidableEq

/-- The master database: registry collections, dynamically named
partitions (association list keyed by collection name; a collection
exists iff its key is present), and the ObjectId counter. -/
structure DB where
  admins : List AdminRec
  orgs : List OrgRec
  partitions : List (String × List PDoc)
  nextId : Nat
deriving Repr, DecidableEq

/-- `organizations.find_one({"organization_name": name})`: first document
matching the name, in natural (insertion) order. -/
def findOrgByName (orgs : List OrgRec) (name : String) : Option OrgRec :=
  orgs.find? (fun o => o.organization_name == name)

/-- `admins.find_one({"email": email})`. -/
def findAdminByEmail (admins : List AdminRec) (email : String) : Option AdminRec :=
  admins.find? (fun a => a.email == email)

/-- The collection-name derivation
`f"org_{name.lower().replace(' ', '_')}"` (main.py lines 117 and 196 and
278): lowercase, then replace each space with an underscore, prefix with
`org_`.  Both steps act characterwise, so they are expressed as one map
over the characters. -/
def deriveCollectionName (name : String) : String :=
  "org_" ++ String.mk (name.data.map (fun c => if c = ' ' then '_' else c.toLower))

/-- Contents of the partition named `name`, if that collection exists. -/
def getPartition : List (String × List PDoc) → String → Option (List PDoc)
  | [], _ => none
  | (k, ds) :: rest, name => if k = name then some ds else getPartition rest name

/-- `collection.insert_one`: append the document to the named collection,
creating the collection if it does not exist yet (MongoDB collections
spring into existence on first insert). -/
def insertInto : List (String × List PDoc) → String → PDoc → List (String × List PDoc)
  | [], name, d => [(name, [d])]
  | (k, ds) :: rest, name, d =>
    if k = name then (k, ds ++ [d]) :: rest
    else (k, ds) :: insertInto rest name d

/-- `collection.drop()`: remove the named collection and all its
documents. -/
def dropColl : List (String × List PDoc) → String → List (String × List PDoc)
  | [], _ => []
  | (k, ds) :: rest, name =>
    if k = name then dropColl rest name else (k, ds) :: dropColl rest name

/-- Insert a document into a partition, assigning the next fresh
storage id. -/
def DB.insertDoc (s : DB) (coll : String) (d : PDoc) : DB :=
  { s with
    partitions := insertInto s.partitions coll { d with id := some s.nextId },
    nextId := s.nextId + 1 }

/-- `update_one`: apply `f` to the first element matching `p` (MongoDB
updates the first matching document). -/
def updateFirst {α : Type} (p : α → Bool) (f : α → α) : List α → List α
  | [] => []
  | a :: rest => if p a then f a :: rest else a :: updateFirst p f rest

/-- Errors raised by the organization and auth services, by the
`detail` string of the corresponding `HTTPException`. -/
inductive ApiError where
  | duplicateName
  | duplicateEmail
  | notFound
  | forbidden
  | invalidCredentials
deriving Repr, DecidableEq

/-- Request body `OrganizationCreate` (main.py lines 124-127). -/
structure OrganizationCreate where
  organization_name : String
  email : String
  password : String
deriving Repr, DecidableEq

/-- Request body `OrganizationUpdate` (main.py lines 129-132). -/
structure OrganizationUpdate where
  organization_name : String
  email : String
  password : String
deriving Repr, DecidableEq

/-- Response schema `OrganizationResponse` (main.py lines 134-140). -/
structure OrganizationResponse where
  id : Nat
  organization_name : String
  collection_name : String
  admin_email : String
  created_at : Nat
  updated_at : Option Nat
deriving Repr, DecidableEq

/-- The decoded bearer claims handed to update/delete by the
`get_current_admin` dependency (`admin_id`, `org_id`, `org_name`). -/
structure AdminPayload where
  admin_id : String
  org_id : String
  org_name : String
deriving Repr, DecidableEq

/-- Request body `AdminLogin` (main.py lines 142-144). -/
structure AdminLogin where
  email : String
  password : String
deriving Repr, DecidableEq

/-- Response schema `TokenResponse` (main.py lines 146-150). -/
structure TokenResponse where
  access_token : Token
  token_type : String
  org_name : String
  admin_email : String
deriving Repr, DecidableEq

/-- `OrganizationService.create_organization` (main.py lines 173-236).
All `datetime.utcnow()` readings within one call are modelled by the
single instant `now`. -/
def create_organization (now : Nat) (data : OrganizationCreate) (s : DB) :
    DB × Except ApiError OrganizationResponse :=
  match findOrgByName s.orgs data.organization_name with
  | some _ => (s, .error .duplicateName)
  | none =>
    match findAdminByEmail s.admins data.email with
    | some _ => (s, .error .duplicateEmail)
    | none =>
      let collection_name := deriveCollectionName data.organization_name
      let adminId := s.nextId
      let s1 : DB := { s with
        admins := s.admins ++
          [⟨adminId, data.email, hash_password data.password, now, none⟩],
        nextId := s.nextId + 1 }
      let orgId := s1.nextId
      let s2 : DB := { s1 with
        orgs := s1.orgs ++
          [⟨orgId, data.organization_name, collection_name, adminId,
            data.email, now, none⟩],
        nextId := s1.nextId + 1 }
      let metaDoc : PDoc :=
        ⟨none, some "metadata", some data.organization_name, some now,
         some "1.0", []⟩
      let s3 := s2.insertDoc collection_name metaDoc
      (s3, .ok ⟨orgId, data.organization_name, collection_name, data.email,
                now, none⟩)

/-- `OrganizationService.get_organization` (main.py lines 238-254). -/
def get_organization (org_name : String) (s : DB) :
    Except ApiError OrganizationResponse :=
  match findOrgByName s.orgs org_name with
  | none => .error .notFound
  | some org =>
    .ok ⟨org.id, org.organization_name, org.collection_name,
         org.admin_email, org.created_at, org.updated_at⟩

/-- The per-document transform of the migration loop (main.py lines
287-291): `doc.pop("_id", None)`, then rewrite `organization_name` when
`doc.get("_type") == "metadata"`. -/
def migrateDoc (newOrgName : String) (d : PDoc) : PDoc :=
  let d1 : PDoc := { d with id := none }
  if d1.typ == some "metadata" then { d1 with orgName := some newOrgName } else d1

/-- The migration loop (main.py lines 287-291): insert each migrated
document of the snapshot into the destination collection, in the store's
natural iteration order. -/
def migrateAll (newColl newOrgName : String) (docs : List PDoc) (s : DB) : DB :=
  docs.foldl (fun acc d => acc.insertDoc newColl (migrateDoc newOrgName d)) s

/-- `OrganizationService.update_organization` (main.py lines 256-325). -/
def update_organization (now : Nat) (old_name : String)
    (data : OrganizationUpdate) (payload : AdminPayload) (s : DB) :
    DB × Except ApiError OrganizationResponse :=
  if payload.org_name ≠ old_name then (s, .error .forbidden)
  else
    match findOrgByName s.orgs old_name with
    | none => (s, .error .notFound)
    | some org =>
      if data.organization_name ≠ old_name ∧
          (findOrgByName s.orgs data.organization_name).isSome then
        (s, .error .duplicateName)
      else
        let new_collection_name := deriveCollectionName data.organization_name
        let old_collection_name := org.collection_name
        let s1 : DB :=
          if data.organization_name ≠ old_name then
            let docs := (getPartition s.partitions old_collection_name).getD []
            let sM := migrateAll new_collection_name data.organization_name docs s
            { sM with partitions := dropColl sM.partitions old_collection_name }
          else s
        let s2 : DB := { s1 with
          admins := updateFirst (fun a => a.id == org.admin_id)
            (fun a => { a with
              email := data.email,
              password_hash := hash_password data.password,
              updated_at := some now }) s1.admins }
        let s3 : DB := { s2 with
          orgs := updateFirst (fun o => o.id == org.id)
            (fun o => { o with
              organization_name := data.organization_name,
              collection_name := new_collection_name,
              admin_email := data.email,
              updated_at := some now }) s2.orgs }
        (s3, .ok ⟨org.id, data.organization_name, new_collection_name,
                  data.email, org.created_at, some now⟩)

/-- `OrganizationService.delete_organization` (main.py lines 327-352). -/
def delete_organization (org_name : String) (payload : AdminPayload) (s : DB) :
    DB × Except ApiError String :=
  if payload.org_name ≠ org_name then (s, .error .forbidden)
  else
    match findOrgByName s.orgs org_name with
    | none => (s, .error .notFound)
    | some org =>
      let s1 : DB := { s with partitions := dropColl s.partitions org.collection_name }
      let s2 : DB := { s1 with
        admins := s1.admins.eraseP (fun a => a.id == org.admin_id) }
      let s3 : DB := { s2 with
        orgs := s2.orgs.eraseP (fun o => o.id == org.id) }
      (s3, .ok ("Organization \x27" ++ org_name ++ "\x27 deleted successfully"))

/-- Strip the storage-assigned `_id` of a partition document; used to
compare documents up to the identifier the destination store assigns
afresh during migration. -/
def stripId (d : PDoc) : PDoc := { d with id := none }

/-- `AuthService.login` (main.py lines 361-393). -/
def login (now : Nat) (data : AdminLogin) (s : DB) :
    Except ApiError TokenResponse :=
  match findAdminByEmail s.admins data.email with
  | none => .error .invalidCredentials
  | some admin =>
    if verify_password data.password admin.password_hash then
      match s.orgs.find? (fun o => o.admin_id == admin.id) with
      | none => .error .notFound
      | some org =>
        .ok ⟨create_token (toString admin.id) (toString org.id)
               org.organization_name now,
             "bearer", org.organization_name, data.email⟩
    else .error .invalidCredentials

/-- Admin `email` uniqueness: no two admin records share an email. -/
def emailsNodup (s : DB) : Prop := (s.admins.map AdminRec.email).Nodup

/-- The names of the currently existing partitions (dynamically named
collections). -/
def partitionNames (s : DB) : List String := s.partitions.map Prod.fst

/-- No orphan partitions: every existing partition name is some tenant's
current `collection_name`. -/
def partitionKeysOwned (s : DB) : Prop :=
  ∀ k ∈ partitionNames s, ∃ o ∈ s.orgs, o.collection_name = k

/-- Every partition holds at least one document (the metadata document
written at creation; the service never removes single documents). -/
def partitionsNonempty (s : DB) : Prop := ∀ p ∈ s.partitions, p.2 ≠ []

/-- Registry/partition consistency invariant: distinct record ids,
tenant names and collection names; each tenant's `collection_name` is the
derivation of its name; partition names are distinct, each tenant's
partition exists, no orphan partitions, no empty partitions; record ids
are below the fresh-id counter. -/
def Inv (s : DB) : Prop :=
  (s.orgs.map OrgRec.id).Nodup ∧
  (s.orgs.map OrgRec.organization_name).Nodup ∧
  (s.orgs.map OrgRec.collection_name).Nodup ∧
  (∀ o ∈ s.orgs, o.collection_name = deriveCollectionName o.organization_name) ∧
  (partitionNames s).Nodup ∧
  (∀ o ∈ s.orgs, o.collection_name ∈ partitionNames s) ∧
  partitionKeysOwned s ∧
  partitionsNonempty s ∧
  (∀ o ∈ s.orgs, o.id < s.nextId)

instance (s : DB) : Decidable (emailsNodup s) := by
  unfold emailsNodup; infer_instance

instance (s : DB) : Decidable (partitionKeysOwned s) := by
  unfold partitionKeysOwned; infer_instance

instance (s : DB) : Decidable (partitionsNonempty s) := by
  unfold partitionsNonempty; infer_instance

instance (s : DB) : Decidable (Inv s) := by
  unfold Inv; infer_instance

/-- Example admin record, as left by
`CreateTenant("Acme Inc", "a@acme.com", "secret1")` at time 1. -/
def exAdmin : AdminRec := ⟨0, "a@acme.com", hash_password "secret1", 1, none⟩

/-- Example tenant record for `"Acme Inc"`. -/
def exOrg : OrgRec := ⟨1, "Acme Inc", "org_acme_inc", 0, "a@acme.com", 1, none⟩

/-- The metadata document of the `org_acme_inc` partition. -/
def exMeta : PDoc := ⟨some 2, some "metadata", some "Acme Inc", some 1, some "1.0", []⟩

/-- Example database holding the single tenant `"Acme Inc"`. -/
def exS : DB := ⟨[exAdmin], [exOrg], [("org_acme_inc", [exMeta])], 3⟩

/-- A second admin record (tenant `"Beta LLC"`). -/
def exAdminB : AdminRec := ⟨4, "b@beta.com", hash_password "secret2", 2, none⟩

/-- A second tenant record `"Beta LLC"`. -/
def exOrgB : OrgRec := ⟨5, "Beta LLC", "org_beta_llc", 4, "b@beta.com", 2, none⟩

/-- Example database holding the two tenants `"Acme Inc"` and
`"Beta LLC"`. -/
def exS2 : DB :=
  ⟨[exAdmin, exAdminB], [exOrg, exOrgB],
   [("org_acme_inc", [exMeta]),
    ("org_beta_llc", [⟨some 6, some "metadata", some "Beta LLC", some 2, some "1.0", []⟩])],
   7⟩

/-! ### Helper lemmas -/

theorem find?_decomp {α : Type} {p : α → Bool} {l : List α} {b : α}
    (h : l.find? p = some b) :
    ∃ l1 l2, l = l1 ++ b :: l2 ∧ (∀ x ∈ l1, ¬ p x = true) ∧ p b = true := by
  induction l with
  | nil => simp at h
  | cons a t ih =>
    by_cases hpa : p a = true
    · rw [List.find?_cons_of_pos _ hpa] at h
      obtain rfl : a = b := by injection h
      exact ⟨[], t, rfl, by simp, hpa⟩
    · rw [List.find?_cons_of_neg _ (by simpa using hpa)] at h
      obtain ⟨l1, l2, hl, h1, hb⟩ := ih h
      refine ⟨a :: l1, l2, by simp [hl], ?_, hb⟩
      intro x hx
      rcases List.mem_cons.mp hx with rfl | hx
      · exact hpa
      · exact h1 x hx

theorem find?_eq_of_unique {α : Type} {p : α → Bool} {l : List α} {b : α}
    (hm : b ∈ l) (hp : p b = true) (hu : ∀ x ∈ l, p x = true → x = b) :
    l.find? p = some b := by
  induction l with
  | nil => simp at hm
  | cons a t ih =>
    by_cases hpa : p a = true
    · rw [List.find?_cons_of_pos _ hpa]
      exact congrArg some ((hu a (by simp) hpa).symm ▸ rfl)
    · rw [List.find?_cons_of_neg _ (by simpa using hpa)]
      rcases List.mem_cons.mp hm with rfl | hm'
      · exact absurd hp hpa
      · exact ih hm' (fun x hx hpx => hu x (by simp [hx]) hpx)

theorem updateFirst_append_cons {α : Type} (p : α → Bool) (f : α → α)
    (l1 : List α) (b : α) (l2 : List α)
    (h1 : ∀ x ∈ l1, ¬ p x = true) (hb : p b = true) :
    updateFirst p f (l1 ++ b :: l2) = l1 ++ f b :: l2 := by
  induction l1 with
  | nil => simp [updateFirst, hb]
  | cons a t ih =>
    have ha : ¬ p a = true := h1 a (by simp)
    simp only [List.cons_append, updateFirst, if_neg ha]
    exact congrArg (a :: ·) (ih (fun x hx => h1 x (by simp [hx])))

theorem eraseP_append_cons {α : Type} (p : α → Bool)
    (l1 : List α) (b : α) (l2 : List α)
    (h1 : ∀ x ∈ l1, ¬ p x = true) (hb : p b = true) :
    (l1 ++ b :: l2).eraseP p = l1 ++ l2 := by
  induction l1 with
  | nil => simp [List.eraseP_cons, hb]
  | cons a t ih =>
    have ha : p a = false := by simpa using h1 a (by simp)
    simp only [List.cons_append, List.eraseP_cons, ha, cond_false]
    exact congrArg (a :: ·) (ih (fun x hx => h1 x (by simp [hx])))

theorem nodup_map_replace {α β : Type} [DecidableEq β] (g : α → β)
    (l1 l2 : List α) (b b' : α)
    (hN : ((l1 ++ b :: l2).map g).Nodup)
    (hb' : g b' ∉ (l1 ++ l2).map g) :
    ((l1 ++ b' :: l2).map g).Nodup := by
  have h1 : ((l1 ++ b :: l2).map g) = l1.map g ++ g b :: l2.map g := by simp
  have h2 : ((l1 ++ b' :: l2).map g) = l1.map g ++ g b' :: l2.map g := by simp
  rw [h1, List.nodup_middle] at hN
  rw [h2, List.nodup_middle]
  rw [List.nodup_cons] at hN ⊢
  refine ⟨?_, hN.2⟩
  simpa using hb'

theorem insertInto_fst_of_mem (ps : List (String × List PDoc)) (c : String) (d : PDoc)
    (h : c ∈ ps.map Prod.fst) :
    (insertInto ps c d).map Prod.fst = ps.map Prod.fst := by
  induction ps with
  | nil => simp at h
  | cons q rest ih =>
    obtain ⟨k, ds⟩ := q
    by_cases hk : k = c
    · subst hk; simp [insertInto]
    · rw [List.map_cons, List.mem_cons] at h
      have hc : c ∈ rest.map Prod.fst := h.resolve_left (fun h' => hk h'.symm)
      simp [insertInto, hk, ih hc]

theorem insertInto_fst_of_not_mem (ps : List (String × List PDoc)) (c : String) (d : PDoc)
    (h : c ∉ ps.map Prod.fst) :
    (insertInto ps c d).map Prod.fst = ps.map Prod.fst ++ [c] := by
  induction ps with
  | nil => simp [insertInto]
  | cons q rest ih =>
    obtain ⟨k, ds⟩ := q
    have hk : k ≠ c := fun hkc => h (by simp [hkc])
    have hc : c ∉ rest.map Prod.fst := fun hc => h (by simp [hc])
    simp [insertInto, hk, ih hc]

theorem insertInto_nonempty (ps : List (String × List PDoc)) (c : String) (d : PDoc)
    (h : ∀ p ∈ ps, p.2 ≠ []) :
    ∀ p ∈ insertInto ps c d, p.2 ≠ [] := by
  induction ps with
  | nil =>
    intro p hp
    simp [insertInto] at hp
    simp [hp]
  | cons q rest ih =>
    obtain ⟨k, ds⟩ := q
    intro p hp
    by_cases hk : k = c
    · subst hk
      simp only [insertInto, if_pos rfl] at hp
      rcases List.mem_cons.mp hp with rfl | hp
      · simp
      · exact h p (by simp [hp])
    · simp only [insertInto, if_neg hk] at hp
      rcases List.mem_cons.mp hp with rfl | hp
      · exact h _ (by simp)
      · exact ih (fun x hx => h x (by simp [hx])) _ hp

theorem getPartition_insertInto_self (ps : List (String × List PDoc)) (c : String) (d : PDoc) :
    getPartition (insertInto ps c d) c = some ((getPartition ps c).getD [] ++ [d]) := by
  induction ps with
  | nil => simp [insertInto, getPartition]
  | cons q rest ih =>
    obtain ⟨k, ds⟩ := q
    by_cases hk : k = c
    · subst hk; simp [insertInto, getPartition]
    · simp [insertInto, getPartition, hk, ih]

theorem getPartition_insertInto_other (ps : List (String × List PDoc)) (c k : String) (d : PDoc)
    (h : k ≠ c) :
    getPartition (insertInto ps c d) k = getPartition ps k := by
  induction ps with
  | nil => simp [insertInto, getPartition, Ne.symm h]
  | cons q rest ih =>
    obtain ⟨q1, q2⟩ := q
    by_cases hq : q1 = c
    · subst hq
      simp [insertInto, getPartition, Ne.symm h]
    · by_cases hq1 : q1 = k
      · subst hq1
        simp [insertInto, getPartition, hq]
      · simp [insertInto, getPartition, hq, hq1, ih]

theorem getPartition_dropColl_self (ps : List (String × List PDoc)) (c : String) :
    getPartition (dropColl ps c) c = none := by
  induction ps with
  | nil => simp [dropColl, getPartition]
  | cons q rest ih =>
    obtain ⟨q1, q2⟩ := q
    by_cases hq : q1 = c
    · subst hq; simp [dropColl, ih]
    · simp [dropColl, getPartition, hq, ih]

theorem getPartition_dropColl_other (ps : List (String × List PDoc)) (c k : String)
    (h : k ≠ c) :
    getPartition (dropColl ps c) k = getPartition ps k := by
  induction ps with
  | nil => simp [dropColl]
  | cons q rest ih =>
    obtain ⟨q1, q2⟩ := q
    by_cases hq : q1 = c
    · subst hq
      simp [dropColl, getPartition, Ne.symm h, ih]
    · by_cases hq1 : q1 = k
      · subst hq1
        simp [dropColl, getPartition, hq]
      · simp [dropColl, getPartition, hq, hq1, ih]

theorem dropColl_fst (ps : List (String × List PDoc)) (c : String) :
    (dropColl ps c).map Prod.fst = (ps.map Prod.fst).filter (fun k => decide (k ≠ c)) := by
  induction ps with
  | nil => simp [dropColl]
  | cons q rest ih =>
    obtain ⟨q1, q2⟩ := q
    by_cases hq : q1 = c
    · subst hq; simp [dropColl, ih]
    · simp [dropColl, hq, ih]

theorem dropColl_nonempty (ps : List (String × List PDoc)) (c : String)
    (h : ∀ p ∈ ps, p.2 ≠ []) :
    ∀ p ∈ dropColl ps c, p.2 ≠ [] := by
  induction ps with
  | nil => simp [dropColl]
  | cons q rest ih =>
    obtain ⟨q1, q2⟩ := q
    intro p hp
    by_cases hq : q1 = c
    · subst hq
      simp only [dropColl, if_pos rfl] at hp
      exact ih (fun x hx => h x (by simp [hx])) p hp
    · simp only [dropColl, if_neg hq] at hp
      rcases List.mem_cons.mp hp with rfl | hp
      · exact h _ (by simp)
      · exact ih (fun x hx => h x (by simp [hx])) _ hp

theorem getPartition_isSome_of_mem (ps : List (String × List PDoc)) (k : String)
    (h : k ∈ ps.map Prod.fst) :
    ∃ ds, getPartition ps k = some ds := by
  induction ps with
  | nil => simp at h
  | cons q rest ih =>
    obtain ⟨q1, q2⟩ := q
    by_cases hq : q1 = k
    · subst hq; exact ⟨q2, by simp [getPartition]⟩
    · rw [List.map_cons, List.mem_cons] at h
      have hk : k ∈ rest.map Prod.fst := h.resolve_left (fun h' => hq h'.symm)
      obtain ⟨ds, hds⟩ := ih hk
      exact ⟨ds, by simp [getPartition, hq, hds]⟩

theorem getPartition_mem_entry (ps : List (String × List PDoc)) (k : String) (ds : List PDoc)
    (h : getPartition ps k = some ds) : (k, ds) ∈ ps := by
  induction ps with
  | nil => simp [getPartition] at h
  | cons q rest ih =>
    obtain ⟨q1, q2⟩ := q
    by_cases hq : q1 = k
    · subst hq
      simp only [getPartition, if_pos rfl] at h
      obtain rfl : q2 = ds := by injection h
      simp
    · simp only [getPartition, if_neg hq] at h
      exact List.mem_cons_of_mem _ (ih h)

theorem migrateAll_nil (c n : String) (s : DB) : migrateAll c n [] s = s := rfl

theorem migrateAll_cons (c n : String) (d : PDoc) (rest : List PDoc) (s : DB) :
    migrateAll c n (d :: rest) s = migrateAll c n rest (s.insertDoc c (migrateDoc n d)) := rfl

theorem insertDoc_admins (s : DB) (c : String) (d : PDoc) :
    (s.insertDoc c d).admins = s.admins := rfl

theorem insertDoc_orgs (s : DB) (c : String) (d : PDoc) :
    (s.insertDoc c d).orgs = s.orgs := rfl

theorem insertDoc_partitions (s : DB) (c : String) (d : PDoc) :
    (s.insertDoc c d).partitions = insertInto s.partitions c { d with id := some s.nextId } := rfl

theorem migrateAll_admins (c n : String) (docs : List PDoc) (s : DB) :
    (migrateAll c n docs s).admins = s.admins := by
  induction docs generalizing s with
  | nil => rfl
  | cons d rest ih => rw [migrateAll_cons, ih, insertDoc_admins]

theorem migrateAll_orgs (c n : String) (docs : List PDoc) (s : DB) :
    (migrateAll c n docs s).orgs = s.orgs := by
  induction docs generalizing s with
  | nil => rfl
  | cons d rest ih => rw [migrateAll_cons, ih, insertDoc_orgs]

theorem migrateAll_nextId_ge (c n : String) (docs : List PDoc) (s : DB) :
    s.nextId ≤ (migrateAll c n docs s).nextId := by
  induction docs generalizing s with
  | nil => exact le_rfl
  | cons d rest ih =>
    rw [migrateAll_cons]
    exact le_trans
      (show s.nextId ≤ (s.insertDoc c (migrateDoc n d)).nextId from Nat.le_succ _) (ih _)

theorem mem_partitionNames_insertDoc (s : DB) (c : String) (d : PDoc) :
    c ∈ partitionNames (s.insertDoc c d) := by
  by_cases h : c ∈ partitionNames s
  · rw [partitionNames, insertDoc_partitions, insertInto_fst_of_mem _ _ _ h]
    exact h
  · rw [partitionNames, insertDoc_partitions, insertInto_fst_of_not_mem _ _ _ h]
    simp

theorem migrateAll_names_mem (c n : String) (docs : List PDoc) (s : DB)
    (h : c ∈ partitionNames s) :
    partitionNames (migrateAll c n docs s) = partitionNames s := by
  induction docs generalizing s with
  | nil => rfl
  | cons d rest ih =>
    rw [migrateAll_cons, ih _ (mem_partitionNames_insertDoc _ _ _)]
    rw [partitionNames, insertDoc_partitions, insertInto_fst_of_mem _ _ _ h]
    rfl

theorem migrateAll_names_new (c n : String) (docs : List PDoc) (s : DB)
    (h : c ∉ partitionNames s) (hd : docs ≠ []) :
    partitionNames (migrateAll c n docs s) = partitionNames s ++ [c] := by
  cases docs with
  | nil => exact absurd rfl hd
  | cons d rest =>
    rw [migrateAll_cons, migrateAll_names_mem _ _ _ _ (mem_partitionNames_insertDoc _ _ _)]
    rw [partitionNames, insertDoc_partitions, insertInto_fst_of_not_mem _ _ _ h]
    rfl

theorem migrateAll_nonempty (c n : String) (docs : List PDoc) (s : DB)
    (h : ∀ p ∈ s.partitions, p.2 ≠ []) :
    ∀ p ∈ (migrateAll c n docs s).partitions, p.2 ≠ [] := by
  induction docs generalizing s with
  | nil => exact h
  | cons d rest ih =>
    rw [migrateAll_cons]
    exact ih _ (insertInto_nonempty _ _ _ h)

theorem getPartition_migrateAll_other (c n k : String) (docs : List PDoc) (s : DB)
    (hk : k ≠ c) :
    getPartition (migrateAll c n docs s).partitions k = getPartition s.partitions k := by
  induction docs generalizing s with
  | nil => rfl
  | cons d rest ih =>
    rw [migrateAll_cons, ih, insertDoc_partitions, getPartition_insertInto_other _ _ _ _ hk]

theorem stripId_migrateDoc (n : String) (d : PDoc) :
    stripId (migrateDoc n d) = migrateDoc n d := by
  rw [migrateDoc]
  by_cases h : ({ d with id := none } : PDoc).typ == some "metadata"
  · simp only [if_pos h]; rfl
  · simp only [if_neg h]; rfl

theorem getPartition_migrateAll_self (c n : String) (docs : List PDoc) (s : DB) :
    ((getPartition (migrateAll c n docs s).partitions c).getD []).map stripId =
      ((getPartition s.partitions c).getD []).map stripId ++ docs.map (migrateDoc n) := by
  induction docs generalizing s with
  | nil => simp [migrateAll_nil]
  | cons d rest ih =>
    rw [migrateAll_cons, ih]
    rw [insertDoc_partitions, getPartition_insertInto_self]
    simp only [Option.getD_some, List.map_append, List.map_cons, List.map_nil]
    have h1 : stripId { migrateDoc n d with id := some s.nextId } = migrateDoc n d := by
      have h2 : stripId { migrateDoc n d with id := some s.nextId } = stripId (migrateDoc n d) := rfl
      rw [h2, stripId_migrateDoc]
    rw [h1]
    simp

theorem nodup_append_singleton {α : Type} (l : List α) (a : α) :
    (l ++ [a]).Nodup ↔ a ∉ l ∧ l.Nodup := by
  rw [show l ++ [a] = l ++ a :: [] from rfl, List.nodup_middle]
  simp [List.nodup_cons]

theorem nodup_middle_not_mem {α β : Type} (g : α → β) (l1 l2 : List α) (b : α)
    (h : ((l1 ++ b :: l2).map g).Nodup) : g b ∉ (l1 ++ l2).map g := by
  rw [List.map_append, List.map_cons, List.nodup_middle, List.nodup_cons] at h
  simpa using h.1

theorem findOrgByName_eq_none (orgs : List OrgRec) (nm : String) :
    findOrgByName orgs nm = none ↔ ∀ o ∈ orgs, o.organization_name ≠ nm := by
  rw [findOrgByName, List.find?_eq_none]
  constructor
  · intro h o ho
    simpa using h o ho
  · intro h o ho
    simpa using h o ho

theorem findAdminByEmail_eq_none (admins : List AdminRec) (e : String) :
    findAdminByEmail admins e = none ↔ ∀ a ∈ admins, a.email ≠ e := by
  rw [findAdminByEmail, List.find?_eq_none]
  constructor
  · intro h a ha
    simpa using h a ha
  · intro h a ha
    simpa using h a ha

theorem findOrgByName_mem {orgs : List OrgRec} {nm : String} {org : OrgRec}
    (h : findOrgByName orgs nm = some org) : org ∈ orgs :=
  List.mem_of_find?_eq_some h

theorem findOrgByName_name {orgs : List OrgRec} {nm : String} {org : OrgRec}
    (h : findOrgByName orgs nm = some org) : org.organization_name = nm := by
  have := List.find?_some h
  simpa using this

theorem create_result_eq (now : Nat) (data : OrganizationCreate) (s : DB)
    (hN : findOrgByName s.orgs data.organization_name = none)
    (hE : findAdminByEmail s.admins data.email = none) :
    create_organization now data s =
      ({ admins := s.admins ++ [⟨s.nextId, data.email, hash_password data.password, now, none⟩],
         orgs := s.orgs ++ [⟨s.nextId + 1, data.organization_name,
           deriveCollectionName data.organization_name, s.nextId, data.email, now, none⟩],
         partitions := insertInto s.partitions (deriveCollectionName data.organization_name)
           ⟨some (s.nextId + 2), some "metadata", some data.organization_name, some now,
            some "1.0", []⟩,
         nextId := s.nextId + 3 },
       .ok ⟨s.nextId + 1, data.organization_name,
            deriveCollectionName data.organization_name, data.email, now, none⟩) := by
  rw [create_organization, hN, hE]
  rfl

theorem create_result_fst (now : Nat) (data : OrganizationCreate) (s : DB)
    (hN : findOrgByName s.orgs data.organization_name = none)
    (hE : findAdminByEmail s.admins data.email = none) :
    (create_organization now data s).1 =
      { admins := s.admins ++ [⟨s.nextId, data.email, hash_password data.password, now, none⟩],
        orgs := s.orgs ++ [⟨s.nextId + 1, data.organization_name,
          deriveCollectionName data.organization_name, s.nextId, data.email, now, none⟩],
        partitions := insertInto s.partitions (deriveCollectionName data.organization_name)
          ⟨some (s.nextId + 2), some "metadata", some data.organization_name, some now,
           some "1.0", []⟩,
        nextId := s.nextId + 3 } := by
  rw [create_result_eq now data s hN hE]

theorem create_preserves_inv (now : Nat) (data : OrganizationCreate) (s : DB)
    (hInv : Inv s)
    (hFresh : ∀ o ∈ s.orgs, o.collection_name ≠ deriveCollectionName data.organization_name)
    (hN : findOrgByName s.orgs data.organization_name = none)
    (hE : findAdminByEmail s.admins data.email = none) :
    Inv (create_organization now data s).1 := by
  obtain ⟨hIds, hNames, hColls, hDeriv, hPNodup, hPMem, hOwned, hNE, hBound⟩ := hInv
  have hFresh' : deriveCollectionName data.organization_name ∉ s.orgs.map OrgRec.collection_name := by
    intro hm
    obtain ⟨o, ho, hco⟩ := List.mem_map.mp hm
    exact hFresh o ho hco
  have hPN : deriveCollectionName data.organization_name ∉ partitionNames s := by
    intro hm
    obtain ⟨o, ho, hco⟩ := hOwned _ hm
    exact hFresh o ho hco
  rw [create_result_fst now data s hN hE]
  have hpn : partitionNames
      ({ admins := s.admins ++ [⟨s.nextId, data.email, hash_password data.password, now, none⟩],
         orgs := s.orgs ++ [⟨s.nextId + 1, data.organization_name,
           deriveCollectionName data.organization_name, s.nextId, data.email, now, none⟩],
         partitions := insertInto s.partitions (deriveCollectionName data.organization_name)
           ⟨some (s.nextId + 2), some "metadata", some data.organization_name, some now,
            some "1.0", []⟩,
         nextId := s.nextId + 3 } : DB) = partitionNames s ++ [deriveCollectionName data.organization_name] := by
    rw [partitionNames]
    exact insertInto_fst_of_not_mem _ _ _ hPN
  refine ⟨?_, ?_, ?_, ?_, ?_, ?_, ?_, ?_, ?_⟩
  · -- org ids nodup
    simp only [List.map_append, List.map_cons, List.map_nil]
    rw [nodup_append_singleton]
    refine ⟨?_, hIds⟩
    intro hm
    obtain ⟨o, ho, hco⟩ := List.mem_map.mp hm
    exact absurd (hco ▸ hBound o ho) (by simp)
  · -- org names nodup
    simp only [List.map_append, List.map_cons, List.map_nil]
    rw [nodup_append_singleton]
    refine ⟨?_, hNames⟩
    intro hm
    obtain ⟨o, ho, hco⟩ := List.mem_map.mp hm
    exact (findOrgByName_eq_none _ _).mp hN o ho hco
  · -- org colls nodup
    simp only [List.map_append, List.map_cons, List.map_nil]
    rw [nodup_append_singleton]
    exact ⟨hFresh', hColls⟩
  · -- derive
    intro o ho
    rcases List.mem_append.mp ho with ho | ho
    · exact hDeriv o ho
    · rcases List.mem_cons.mp ho with rfl | h
      · rfl
      · simp at h
  · -- partition names nodup
    rw [hpn, nodup_append_singleton]
    exact ⟨hPN, hPNodup⟩
  · -- each org coll present
    intro o ho
    rw [hpn]
    rcases List.mem_append.mp ho with ho | ho
    · exact List.mem_append_left _ (hPMem o ho)
    · rcases List.mem_cons.mp ho with rfl | h
      · exact List.mem_append_right _ (by simp)
      · simp at h
  · -- owned
    intro k hk
    rw [hpn] at hk
    rcases List.mem_append.mp hk with hk | hk
    · obtain ⟨o, ho, hco⟩ := hOwned k hk
      exact ⟨o, List.mem_append_left _ ho, hco⟩
    · rcases List.mem_cons.mp hk with rfl | h
      · exact ⟨⟨s.nextId + 1, data.organization_name,
          deriveCollectionName data.organization_name, s.nextId, data.email, now, none⟩,
          List.mem_append_right _ (by simp), rfl⟩
      · simp at h
  · -- nonempty
    exact insertInto_nonempty _ _ _ hNE
  · -- bounds
    intro o ho
    show _ < s.nextId + 3
    rcases List.mem_append.mp ho with ho | ho
    · exact lt_trans (hBound o ho) (by omega)
    · rcases List.mem_cons.mp ho with rfl | h
      · show s.nextId + 1 < s.nextId + 3
        omega
      · simp at h

theorem mem_decomp_of_nodup_map {α β : Type} (g : α → β) {l : List α} {b : α}
    (hN : (l.map g).Nodup) (hm : b ∈ l) :
    ∃ l1 l2, l = l1 ++ b :: l2 ∧ ∀ x ∈ l1, g x ≠ g b := by
  induction l with
  | nil => simp at hm
  | cons a t ih =>
    rcases List.mem_cons.mp hm with rfl | hm'
    · exact ⟨[], t, rfl, by simp⟩
    · have hN' : (t.map g).Nodup := (List.nodup_cons.mp (by simpa using hN)).2
      obtain ⟨l1, l2, hl, h1⟩ := ih hN' hm'
      refine ⟨a :: l1, l2, by simp [hl], ?_⟩
      intro x hx
      rcases List.mem_cons.mp hx with rfl | hx'
      · have hmem : g b ∈ t.map g := List.mem_map_of_mem g hm'
        have hna : g x ∉ t.map g := (List.nodup_cons.mp (by simpa using hN)).1
        exact fun hgab => hna (hgab ▸ hmem)
      · exact h1 x hx'

theorem update_result_fst_same (now : Nat) (old_name : String)
    (data : OrganizationUpdate) (payload : AdminPayload) (s : DB) (org : OrgRec)
    (hp : payload.org_name = old_name)
    (ho : findOrgByName s.orgs old_name = some org)
    (hEq : data.organization_name = old_name) :
    (update_organization now old_name data payload s).1 =
      { admins := updateFirst (fun a => a.id == org.admin_id)
          (fun a =>
            { a with
              email := data.email,
              password_hash := hash_password data.password,
              updated_at := some now }) s.admins,
        orgs := updateFirst (fun o => o.id == org.id)
          (fun o =>
            { o with
              organization_name := data.organization_name,
              collection_name := deriveCollectionName data.organization_name,
              admin_email := data.email,
              updated_at := some now }) s.orgs,
        partitions := s.partitions,
        nextId := s.nextId } := by
  simp only [update_organization, hp, ho, hEq, ne_eq, not_true_eq_false, false_and, if_false,
    ite_false]

theorem update_result_fst_rename (now : Nat) (old_name : String)
    (data : OrganizationUpdate) (payload : AdminPayload) (s : DB) (org : OrgRec)
    (hp : payload.org_name = old_name)
    (ho : findOrgByName s.orgs old_name = some org)
    (hNe : data.organization_name ≠ old_name)
    (hd2 : findOrgByName s.orgs data.organization_name = none) :
    (update_organization now old_name data payload s).1 =
      { admins := updateFirst (fun a => a.id == org.admin_id)
          (fun a =>
            { a with
              email := data.email,
              password_hash := hash_password data.password,
              updated_at := some now }) s.admins,
        orgs := updateFirst (fun o => o.id == org.id)
          (fun o =>
            { o with
              organization_name := data.organization_name,
              collection_name := deriveCollectionName data.organization_name,
              admin_email := data.email,
              updated_at := some now }) s.orgs,
        partitions := dropColl
          (migrateAll (deriveCollectionName data.organization_name) data.organization_name
            ((getPartition s.partitions org.collection_name).getD []) s).partitions
          org.collection_name,
        nextId := (migrateAll (deriveCollectionName data.organization_name)
          data.organization_name
          ((getPartition s.partitions org.collection_name).getD []) s).nextId } := by
  simp only [update_organization, hp, ho, hd2, hNe, ne_eq, not_true_eq_false, not_false_eq_true,
    Option.isSome_none, Bool.false_eq_true, and_false, if_false, if_true, ite_true, ite_false]
  rw [migrateAll_admins, migrateAll_orgs]

theorem Inv_of_components {adm : List AdminRec} {os : List OrgRec}
    {ps : List (String × List PDoc)} {ni : Nat}
    (h1 : (os.map OrgRec.id).Nodup)
    (h2 : (os.map OrgRec.organization_name).Nodup)
    (h3 : (os.map OrgRec.collection_name).Nodup)
    (h4 : ∀ o ∈ os, o.collection_name = deriveCollectionName o.organization_name)
    (h5 : (ps.map Prod.fst).Nodup)
    (h6 : ∀ o ∈ os, o.collection_name ∈ ps.map Prod.fst)
    (h7 : ∀ k ∈ ps.map Prod.fst, ∃ o ∈ os, o.collection_name = k)
    (h8 : ∀ p ∈ ps, p.2 ≠ [])
    (h9 : ∀ o ∈ os, o.id < ni) :
    Inv ⟨adm, os, ps, ni⟩ :=
  ⟨h1, h2, h3, h4, h5, h6, h7, h8, h9⟩

theorem update_preserves_inv (now : Nat) (old_name : String)
    (data : OrganizationUpdate) (payload : AdminPayload) (s : DB) (org : OrgRec)
    (hInv : Inv s)
    (hp : payload.org_name = old_name)
    (ho : findOrgByName s.orgs old_name = some org)
    (hAm : data.organization_name = old_name ∨
           ∀ o ∈ s.orgs, o.collection_name ≠ deriveCollectionName data.organization_name) :
    Inv (update_organization now old_name data payload s).1 := by
  obtain ⟨hIds, hNames, hColls, hDeriv, hPNodup, hPMem, hOwned, hNE, hBound⟩ := hInv
  have horgmem : org ∈ s.orgs := findOrgByName_mem ho
  have horgname : org.organization_name = old_name := findOrgByName_name ho
  have hocoll : org.collection_name = deriveCollectionName old_name := by
    rw [← horgname]; exact hDeriv org horgmem
  obtain ⟨l1, l2, hl, hl1⟩ := mem_decomp_of_nodup_map OrgRec.id hIds horgmem
  have hl1' : ∀ x ∈ l1, ¬ ((fun o : OrgRec => o.id == org.id) x) = true := by
    intro x hx
    simpa using hl1 x hx
  have hsub12 : ∀ x, x ∈ l1 ++ l2 → x ∈ s.orgs := by
    intro x hx
    rw [hl]
    rcases List.mem_append.mp hx with hx | hx
    · exact List.mem_append_left _ hx
    · exact List.mem_append_right _ (List.mem_cons_of_mem _ hx)
  have hmem12 : ∀ x, x ∈ s.orgs → x ≠ org → x ∈ l1 ++ l2 := by
    intro x hx hne
    rw [hl] at hx
    rcases List.mem_append.mp hx with hx | hx
    · exact List.mem_append_left _ hx
    · rcases List.mem_cons.mp hx with rfl | hx
      · exact absurd rfl hne
      · exact List.mem_append_right _ hx
  have hup : updateFirst (fun o => o.id == org.id)
      (fun o =>
        { o with
          organization_name := data.organization_name,
          collection_name := deriveCollectionName data.organization_name,
          admin_email := data.email,
          updated_at := some now }) s.orgs =
      l1 ++ ({ org with
        organization_name := data.organization_name,
        collection_name := deriveCollectionName data.organization_name,
        admin_email := data.email,
        updated_at := some now } : OrgRec) :: l2 := by
    rw [hl]
    exact updateFirst_append_cons _ _ _ _ _ hl1' (by simp)
  have hidsmap : (l1 ++ ({ org with
      organization_name := data.organization_name,
      collection_name := deriveCollectionName data.organization_name,
      admin_email := data.email,
      updated_at := some now } : OrgRec) :: l2).map OrgRec.id = s.orgs.map OrgRec.id := by
    rw [hl]
    simp
  by_cases hEq : data.organization_name = old_name
  · -- name unchanged: no migration, partitions untouched
    rw [update_result_fst_same now old_name data payload s org hp ho hEq, hup]
    refine Inv_of_components ?_ ?_ ?_ ?_ ?_ ?_ ?_ ?_ ?_
    · rw [hidsmap]; exact hIds
    · have hm : (l1 ++ ({ org with
          organization_name := data.organization_name,
          collection_name := deriveCollectionName data.organization_name,
          admin_email := data.email,
          updated_at := some now } : OrgRec) :: l2).map OrgRec.organization_name =
          s.orgs.map OrgRec.organization_name := by
        rw [hl]
        simp [hEq, horgname]
      rw [hm]; exact hNames
    · have hm : (l1 ++ ({ org with
          organization_name := data.organization_name,
          collection_name := deriveCollectionName data.organization_name,
          admin_email := data.email,
          updated_at := some now } : OrgRec) :: l2).map OrgRec.collection_name =
          s.orgs.map OrgRec.collection_name := by
        rw [hl]
        simp [hEq, hocoll]
      rw [hm]; exact hColls
    · intro o hom
      rcases List.mem_append.mp hom with h1 | h1
      · exact hDeriv o (hsub12 o (List.mem_append_left _ h1))
      · rcases List.mem_cons.mp h1 with rfl | h1
        · rfl
        · exact hDeriv o (hsub12 o (List.mem_append_right _ h1))
    · exact hPNodup
    · intro o hom
      rcases List.mem_append.mp hom with h1 | h1
      · exact hPMem o (hsub12 o (List.mem_append_left _ h1))
      · rcases List.mem_cons.mp h1 with rfl | h1
        · show deriveCollectionName data.organization_name ∈ _
          rw [hEq, ← hocoll]
          exact hPMem org horgmem
        · exact hPMem o (hsub12 o (List.mem_append_right _ h1))
    · intro k hk
      obtain ⟨ok, hokmem, hokcoll⟩ := hOwned k hk
      by_cases hko : ok = org
      · subst hko
        refine ⟨_, List.mem_append_right _ (List.mem_cons_self _ _), ?_⟩
        show deriveCollectionName data.organization_name = k
        rw [hEq, ← hocoll]
        exact hokcoll
      · obtain h12 := hmem12 ok hokmem hko
        rcases List.mem_append.mp h12 with h1 | h1
        · exact ⟨ok, List.mem_append_left _ h1, hokcoll⟩
        · exact ⟨ok, List.mem_append_right _ (List.mem_cons_of_mem _ h1), hokcoll⟩
    · exact hNE
    · intro o hom
      rcases List.mem_append.mp hom with h1 | h1
      · exact hBound o (hsub12 o (List.mem_append_left _ h1))
      · rcases List.mem_cons.mp h1 with rfl | h1
        · exact hBound org horgmem
        · exact hBound o (hsub12 o (List.mem_append_right _ h1))
  · -- rename
    have hFreshC : ∀ o ∈ s.orgs, o.collection_name ≠ deriveCollectionName data.organization_name :=
      hAm.resolve_left hEq
    have hd2 : findOrgByName s.orgs data.organization_name = none := by
      rw [findOrgByName_eq_none]
      intro o hom hname
      exact hFreshC o hom (by rw [← hname]; exact hDeriv o hom)
    have hPN : deriveCollectionName data.organization_name ∉ partitionNames s := by
      intro hmem
      obtain ⟨o, hom, hco⟩ := hOwned _ hmem
      exact hFreshC o hom hco
    have hcnold : org.collection_name ≠ deriveCollectionName data.organization_name :=
      hFreshC org horgmem
    obtain ⟨ds, hds⟩ := getPartition_isSome_of_mem s.partitions org.collection_name
      (hPMem org horgmem)
    have hdsne : ds ≠ [] := hNE _ (getPartition_mem_entry _ _ _ hds)
    rw [update_result_fst_rename now old_name data payload s org hp ho hEq hd2, hup, hds]
    simp only [Option.getD_some]
    have hnames' : (dropColl
        (migrateAll (deriveCollectionName data.organization_name) data.organization_name ds
          s).partitions org.collection_name).map Prod.fst =
        (partitionNames s).filter (fun k => decide (k ≠ org.collection_name)) ++
          [deriveCollectionName data.organization_name] := by
      rw [dropColl_fst]
      have hmid : (migrateAll (deriveCollectionName data.organization_name)
          data.organization_name ds s).partitions.map Prod.fst =
          partitionNames s ++ [deriveCollectionName data.organization_name] :=
        migrateAll_names_new _ _ _ _ hPN hdsne
      rw [hmid, List.filter_append]
      congr 1
      simp [Ne.symm hcnold]
    have hnotmem : org.collection_name ∉ (l1 ++ l2).map OrgRec.collection_name :=
      nodup_middle_not_mem OrgRec.collection_name l1 l2 org (hl ▸ hColls)
    refine Inv_of_components ?_ ?_ ?_ ?_ ?_ ?_ ?_ ?_ ?_
    · rw [hidsmap]; exact hIds
    · refine nodup_map_replace OrgRec.organization_name l1 l2 org _ (hl ▸ hNames) ?_
      intro hmem
      obtain ⟨x, hx12, hxname⟩ := List.mem_map.mp hmem
      exact (findOrgByName_eq_none _ _).mp hd2 x (hsub12 x hx12) hxname
    · refine nodup_map_replace OrgRec.collection_name l1 l2 org _ (hl ▸ hColls) ?_
      intro hmem
      obtain ⟨x, hx12, hxcoll⟩ := List.mem_map.mp hmem
      exact hFreshC x (hsub12 x hx12) hxcoll
    · intro o hom
      rcases List.mem_append.mp hom with h1 | h1
      · exact hDeriv o (hsub12 o (List.mem_append_left _ h1))
      · rcases List.mem_cons.mp h1 with rfl | h1
        · rfl
        · exact hDeriv o (hsub12 o (List.mem_append_right _ h1))
    · rw [hnames', nodup_append_singleton]
      constructor
      · intro hmem
        exact hPN (List.mem_of_mem_filter hmem)
      · exact List.Nodup.filter _ hPNodup
    · intro o hom
      rw [hnames']
      rcases List.mem_append.mp hom with h1 | h1
      · refine List.mem_append_left _ (List.mem_filter.mpr
          ⟨hPMem o (hsub12 o (List.mem_append_left _ h1)), ?_⟩)
        simp only [decide_eq_true_eq]
        intro hco
        exact hnotmem (hco ▸ List.mem_map_of_mem OrgRec.collection_name (List.mem_append_left _ h1))
      · rcases List.mem_cons.mp h1 with rfl | h1
        · exact List.mem_append_right _ (by simp)
        · refine List.mem_append_left _ (List.mem_filter.mpr
            ⟨hPMem o (hsub12 o (List.mem_append_right _ h1)), ?_⟩)
          simp only [decide_eq_true_eq]
          intro hco
          exact hnotmem (hco ▸ List.mem_map_of_mem OrgRec.collection_name (List.mem_append_right _ h1))
    · intro k hk
      rw [hnames'] at hk
      rcases List.mem_append.mp hk with hk | hk
      · have hkmem : k ∈ partitionNames s := List.mem_of_mem_filter hk
        have hkne : k ≠ org.collection_name := by
          have := List.of_mem_filter hk
          simpa using this
        obtain ⟨ok, hokmem, hokcoll⟩ := hOwned k hkmem
        have hko : ok ≠ org := fun h => hkne (by rw [← hokcoll, h])
        obtain h12 := hmem12 ok hokmem hko
        rcases List.mem_append.mp h12 with h1 | h1
        · exact ⟨ok, List.mem_append_left _ h1, hokcoll⟩
        · exact ⟨ok, List.mem_append_right _ (List.mem_cons_of_mem _ h1), hokcoll⟩
      · rcases List.mem_cons.mp hk with rfl | hk
        · exact ⟨_, List.mem_append_right _ (List.mem_cons_self _ _), rfl⟩
        · simp at hk
    · exact dropColl_nonempty _ _ (migrateAll_nonempty _ _ _ _ hNE)
    · intro o hom
      have hle := migrateAll_nextId_ge (deriveCollectionName data.organization_name)
        data.organization_name ds s
      rcases List.mem_append.mp hom with h1 | h1
      · exact lt_of_lt_of_le (hBound o (hsub12 o (List.mem_append_left _ h1))) hle
      · rcases List.mem_cons.mp h1 with rfl | h1
        · exact lt_of_lt_of_le (hBound org horgmem) hle
        · exact lt_of_lt_of_le (hBound o (hsub12 o (List.mem_append_right _ h1))) hle

theorem delete_result_fst (org_name : String) (payload : AdminPayload) (s : DB) (org : OrgRec)
    (hp : payload.org_name = org_name)
    (ho : findOrgByName s.orgs org_name = some org) :
    (delete_organization org_name payload s).1 =
      { admins := s.admins.eraseP (fun a => a.id == org.admin_id),
        orgs := s.orgs.eraseP (fun o => o.id == org.id),
        partitions := dropColl s.partitions org.collection_name,
        nextId := s.nextId } := by
  simp only [delete_organization, hp, ho, ne_eq, not_true_eq_false, if_false, ite_false]

theorem delete_preserves_inv (org_name : String) (payload : AdminPayload) (s : DB) (org : OrgRec)
    (hInv : Inv s)
    (hp : payload.org_name = org_name)
    (ho : findOrgByName s.orgs org_name = some org) :
    Inv (delete_organization org_name payload s).1 ∧
      org.collection_name ∉ partitionNames (delete_organization org_name payload s).1 := by
  obtain ⟨hIds, hNames, hColls, hDeriv, hPNodup, hPMem, hOwned, hNE, hBound⟩ := hInv
  have horgmem : org ∈ s.orgs := findOrgByName_mem ho
  obtain ⟨l1, l2, hl, hl1⟩ := mem_decomp_of_nodup_map OrgRec.id hIds horgmem
  have hl1' : ∀ x ∈ l1, ¬ ((fun o : OrgRec => o.id == org.id) x) = true := by
    intro x hx
    simpa using hl1 x hx
  have hsub12 : ∀ x, x ∈ l1 ++ l2 → x ∈ s.orgs := by
    intro x hx
    rw [hl]
    rcases List.mem_append.mp hx with hx | hx
    · exact List.mem_append_left _ hx
    · exact List.mem_append_right _ (List.mem_cons_of_mem _ hx)
  have hmem12 : ∀ x, x ∈ s.orgs → x ≠ org → x ∈ l1 ++ l2 := by
    intro x hx hne
    rw [hl] at hx
    rcases List.mem_append.mp hx with hx | hx
    · exact List.mem_append_left _ hx
    · rcases List.mem_cons.mp hx with rfl | hx
      · exact absurd rfl hne
      · exact List.mem_append_right _ hx
  have herase : s.orgs.eraseP (fun o => o.id == org.id) = l1 ++ l2 := by
    rw [hl]
    exact eraseP_append_cons _ _ _ _ hl1' (by simp)
  have hsubl : List.Sublist (l1 ++ l2) s.orgs := by
    rw [hl]
    exact (List.sublist_cons_self org l2).append_left l1
  have hnotmem : org.collection_name ∉ (l1 ++ l2).map OrgRec.collection_name :=
    nodup_middle_not_mem OrgRec.collection_name l1 l2 org (hl ▸ hColls)
  rw [delete_result_fst org_name payload s org hp ho, herase]
  have hnames' : (dropColl s.partitions org.collection_name).map Prod.fst =
      (partitionNames s).filter (fun k => decide (k ≠ org.collection_name)) :=
    dropColl_fst _ _
  constructor
  · refine Inv_of_components ?_ ?_ ?_ ?_ ?_ ?_ ?_ ?_ ?_
    · exact ((hsubl.map OrgRec.id).nodup hIds)
    · exact ((hsubl.map OrgRec.organization_name).nodup hNames)
    · exact ((hsubl.map OrgRec.collection_name).nodup hColls)
    · exact fun o hom => hDeriv o (hsub12 o hom)
    · rw [hnames']
      exact List.Nodup.filter _ hPNodup
    · intro o hom
      rw [hnames']
      refine List.mem_filter.mpr ⟨hPMem o (hsub12 o hom), ?_⟩
      simp only [decide_eq_true_eq]
      intro hco
      exact hnotmem (hco ▸ List.mem_map_of_mem OrgRec.collection_name hom)
    · intro k hk
      rw [hnames'] at hk
      have hkmem : k ∈ partitionNames s := List.mem_of_mem_filter hk
      have hkne : k ≠ org.collection_name := by
        have := List.of_mem_filter hk
        simpa using this
      obtain ⟨ok, hokmem, hokcoll⟩ := hOwned k hkmem
      have hko : ok ≠ org := fun h => hkne (by rw [← hokcoll, h])
      exact ⟨ok, hmem12 ok hokmem hko, hokcoll⟩
    · exact dropColl_nonempty _ _ hNE
    · exact fun o hom => hBound o (hsub12 o hom)
  · show org.collection_name ∉ (dropColl s.partitions org.collection_name).map Prod.fst
    rw [hnames']
    intro hmem
    have := List.of_mem_filter hmem
    simp at this

theorem create_result_dupname (now : Nat) (data : OrganizationCreate) (s : DB) (org : OrgRec)
    (h : findOrgByName s.orgs data.organization_name = some org) :
    create_organization now data s = (s, .error .duplicateName) := by
  rw [create_organization, h]

theorem create_result_dupemail (now : Nat) (data : OrganizationCreate) (s : DB) (a : AdminRec)
    (hN : findOrgByName s.orgs data.organization_name = none)
    (hE : findAdminByEmail s.admins data.email = some a) :
    create_organization now data s = (s, .error .duplicateEmail) := by
  rw [create_organization, hN, hE]

theorem update_result_forbidden (now : Nat) (old_name : String) (data : OrganizationUpdate)
    (payload : AdminPayload) (s : DB) (h : payload.org_name ≠ old_name) :
    update_organization now old_name data payload s = (s, .error .forbidden) := by
  rw [update_organization, if_pos h]

theorem update_result_notfound (now : Nat) (old_name : String) (data : OrganizationUpdate)
    (payload : AdminPayload) (s : DB)
    (hp : payload.org_name = old_name)
    (ho : findOrgByName s.orgs old_name = none) :
    update_organization now old_name data payload s = (s, .error .notFound) := by
  rw [update_organization, if_neg (by rw [hp]; exact fun h => h rfl), ho]

theorem update_result_dup (now : Nat) (old_name : String) (data : OrganizationUpdate)
    (payload : AdminPayload) (s : DB) (org org2 : OrgRec)
    (hp : payload.org_name = old_name)
    (ho : findOrgByName s.orgs old_name = some org)
    (hne : data.organization_name ≠ old_name)
    (hdup : findOrgByName s.orgs data.organization_name = some org2) :
    update_organization now old_name data payload s = (s, .error .duplicateName) := by
  simp only [update_organization, hp, ho, hdup, ne_eq, not_true_eq_false, if_false, ite_false,
    hne, not_false_eq_true, Option.isSome_some, and_self, if_true, ite_true, true_and, and_true]

theorem update_result_snd_same (now : Nat) (old_name : String)
    (data : OrganizationUpdate) (payload : AdminPayload) (s : DB) (org : OrgRec)
    (hp : payload.org_name = old_name)
    (ho : findOrgByName s.orgs old_name = some org)
    (hEq : data.organization_name = old_name) :
    (update_organization now old_name data payload s).2 =
      .ok ⟨org.id, data.organization_name, deriveCollectionName data.organization_name,
           data.email, org.created_at, some now⟩ := by
  simp only [update_organization, hp, ho, hEq, ne_eq, not_true_eq_false, false_and, if_false,
    ite_false]

theorem update_result_snd_rename (now : Nat) (old_name : String)
    (data : OrganizationUpdate) (payload : AdminPayload) (s : DB) (org : OrgRec)
    (hp : payload.org_name = old_name)
    (ho : findOrgByName s.orgs old_name = some org)
    (hNe : data.organization_name ≠ old_name)
    (hd2 : findOrgByName s.orgs data.organization_name = none) :
    (update_organization now old_name data payload s).2 =
      .ok ⟨org.id, data.organization_name, deriveCollectionName data.organization_name,
           data.email, org.created_at, some now⟩ := by
  simp only [update_organization, hp, ho, hd2, hNe, ne_eq, not_true_eq_false, not_false_eq_true,
    Option.isSome_none, Bool.false_eq_true, and_false, if_false, if_true, ite_true, ite_false]

theorem delete_result_forbidden (org_name : String) (payload : AdminPayload) (s : DB)
    (h : payload.org_name ≠ org_name) :
    delete_organization org_name payload s = (s, .error .forbidden) := by
  rw [delete_organization, if_pos h]

theorem delete_result_notfound (org_name : String) (payload : AdminPayload) (s : DB)
    (hp : payload.org_name = org_name)
    (ho : findOrgByName s.orgs org_name = none) :
    delete_organization org_name payload s = (s, .error .notFound) := by
  rw [delete_organization, if_neg (by rw [hp]; exact fun h => h rfl), ho]

theorem delete_result_snd (org_name : String) (payload : AdminPayload) (s : DB) (org : OrgRec)
    (hp : payload.org_name = org_name)
    (ho : findOrgByName s.orgs org_name = some org) :
    (delete_organization org_name payload s).2 =
      .ok ("Organization \x27" ++ org_name ++ "\x27 deleted successfully") := by
  simp only [delete_organization, hp, ho, ne_eq, not_true_eq_false, if_false, ite_false]

theorem mem_map_updateFirst {α β : Type} (p : α → Bool) (f : α → α) (g : α → β) (l : List α) :
    ∀ x ∈ (updateFirst p f l).map g, x ∈ l.map g ∨ ∃ b ∈ l, p b = true ∧ x = g (f b) := by
  induction l with
  | nil => simp [updateFirst]
  | cons a t ih =>
    intro x hx
    by_cases hpa : p a = true
    · simp only [updateFirst, if_pos hpa, List.map_cons] at hx
      rcases List.mem_cons.mp hx with rfl | hx
      · exact Or.inr ⟨a, by simp, hpa, rfl⟩
      · exact Or.inl (by simp; right; exact List.mem_map.mp hx |>.imp fun b hb => ⟨hb.1, hb.2⟩)
    · simp only [updateFirst, if_neg hpa, List.map_cons] at hx
      rcases List.mem_cons.mp hx with rfl | hx
      · exact Or.inl (by simp)
      · rcases ih x hx with h | ⟨b, hb, hpb, hxb⟩
        · exact Or.inl (by simp; right; exact List.mem_map.mp h |>.imp fun b hb => ⟨hb.1, hb.2⟩)
        · exact Or.inr ⟨b, by simp [hb], hpb, hxb⟩

theorem updateFirst_emails_nodup (l : List AdminRec) (aid : Nat) (e ph : String) (t : Nat)
    (hN : (l.map AdminRec.email).Nodup) (hIds : (l.map AdminRec.id).Nodup)
    (hFree : ∀ a ∈ l, a.email = e → a.id = aid) :
    ((updateFirst (fun a => a.id == aid)
      (fun a => { a with email := e, password_hash := ph, updated_at := some t })
      l).map AdminRec.email).Nodup := by
  induction l with
  | nil => simp [updateFirst]
  | cons a rest ih =>
    by_cases hpa : a.id = aid
    · rw [show updateFirst (fun a => a.id == aid)
        (fun a => { a with email := e, password_hash := ph, updated_at := some t }) (a :: rest) =
        ({ a with email := e, password_hash := ph, updated_at := some t }) :: rest by
          simp [updateFirst, hpa]]
      rw [List.map_cons, List.nodup_cons]
      constructor
      · show e ∉ rest.map AdminRec.email
        intro hmem
        obtain ⟨b, hb, hbe⟩ := List.mem_map.mp hmem
        have hbid : b.id = aid := hFree b (List.mem_cons_of_mem _ hb) hbe
        have : a.id ∉ rest.map AdminRec.id := (List.nodup_cons.mp (by simpa using hIds)).1
        exact this (by rw [hpa, ← hbid]; exact List.mem_map_of_mem _ hb)
      · exact (List.nodup_cons.mp (by simpa using hN)).2
    · rw [show updateFirst (fun a => a.id == aid)
        (fun a => { a with email := e, password_hash := ph, updated_at := some t }) (a :: rest) =
        a :: updateFirst (fun a => a.id == aid)
          (fun a => { a with email := e, password_hash := ph, updated_at := some t }) rest by
          simp [updateFirst, hpa]]
      rw [List.map_cons, List.nodup_cons]
      refine ⟨?_, ih (List.nodup_cons.mp (by simpa using hN)).2
        (List.nodup_cons.mp (by simpa using hIds)).2
        (fun b hb hbe => hFree b (List.mem_cons_of_mem _ hb) hbe)⟩
      intro hmem
      rcases mem_map_updateFirst _ _ AdminRec.email rest a.email hmem with h | ⟨b, hb, hpb, hxb⟩
      · exact (List.nodup_cons.mp (by simpa using hN)).1 h
      · have hae : a.email = e := hxb
        exact hpa (hFree a (List.mem_cons_self _ _) hae)

theorem eraseP_emails_nodup (l : List AdminRec) (p : AdminRec → Bool)
    (hN : (l.map AdminRec.email).Nodup) :
    ((l.eraseP p).map AdminRec.email).Nodup :=
  ((List.eraseP_sublist l).map AdminRec.email).nodup hN

theorem migrateDoc_eq (n : String) (d : PDoc) :
    migrateDoc n d = if d.typ = some "metadata"
      then { d with id := none, orgName := some n }
      else { d with id := none } := by
  rw [migrateDoc]
  by_cases h : d.typ = some "metadata"
  · rw [if_pos (by simpa using h), if_pos h]
  · rw [if_neg (by simpa using h), if_neg h]

theorem hash_password_ne (p : String) : hash_password p ≠ p := by
  intro h
  have h2 := congrArg String.length h
  rw [hash_password, String.length_append] at h2
  have h3 : "$2b$12$".length = 7 := rfl
  omega

theorem inv_count_one (s : DB) (hInv : Inv s) :
    ∀ o ∈ s.orgs, (partitionNames s).count o.collection_name = 1 := by
  intro o ho
  exact List.count_eq_one_of_mem hInv.2.2.2.2.1 (hInv.2.2.2.2.2.1 o ho)

theorem find_org_of_exists {orgs : List OrgRec} {nm : String}
    (h : ∃ o ∈ orgs, o.organization_name = nm) :
    ∃ org, findOrgByName orgs nm = some org := by
  obtain ⟨o, ho, hn⟩ := h
  cases hfind : findOrgByName orgs nm with
  | some org => exact ⟨org, rfl⟩
  | none => exact absurd hn ((findOrgByName_eq_none _ _).mp hfind o ho)

theorem login_result_noadmin (now : Nat) (data : AdminLogin) (s : DB)
    (hA : findAdminByEmail s.admins data.email = none) :
    login now data s = .error .invalidCredentials := by
  rw [login, hA]

theorem login_result_badpw (now : Nat) (data : AdminLogin) (s : DB) (admin : AdminRec)
    (hA : findAdminByEmail s.admins data.email = some admin)
    (hV : verify_password data.password admin.password_hash = false) :
    login now data s = .error .invalidCredentials := by
  rw [login, hA]
  simp only [hV, Bool.false_eq_true, if_false, ite_false]

theorem login_result_orphan (now : Nat) (data : AdminLogin) (s : DB) (admin : AdminRec)
    (hA : findAdminByEmail s.admins data.email = some admin)
    (hV : verify_password data.password admin.password_hash = true)
    (hO : s.orgs.find? (fun o => o.admin_id == admin.id) = none) :
    login now data s = .error .notFound := by
  rw [login, hA]
  simp only [hV, if_true, ite_true, hO]

theorem login_result_ok (now : Nat) (data : AdminLogin) (s : DB) (admin : AdminRec) (org : OrgRec)
    (hA : findAdminByEmail s.admins data.email = some admin)
    (hV : verify_password data.password admin.password_hash = true)
    (hO : s.orgs.find? (fun o => o.admin_id == admin.id) = some org) :
    login now data s = .ok ⟨create_token (toString admin.id) (toString org.id)
      org.organization_name now, "bearer", org.organization_name, data.email⟩ := by
  rw [login, hA]
  simp only [hV, if_true, ite_true, hO]

/-! ### Claims -/

theorem decode_create (a o n : String) (t now2 : Nat) :
    decode_token now2 (create_token a o n t) =
      if t + JWT_EXPIRATION_HOURS * 3600 ≤ now2 then .error .expiredToken
      else .ok [("admin_id", .str a), ("org_id", .str o), ("org_name", .str n),
                ("exp", .num (t + JWT_EXPIRATION_HOURS * 3600)), ("iat", .num t)] := by
  simp only [create_token, decode_token]
  rw [if_neg (fun h => h rfl)]
  rw [show lookupField [("admin_id", JVal.str a), ("org_id", JVal.str o),
      ("org_name", JVal.str n), ("exp", JVal.num (t + JWT_EXPIRATION_HOURS * 3600)),
      ("iat", JVal.num t)] "exp" = some (JVal.num (t + JWT_EXPIRATION_HOURS * 3600)) from rfl]

/-- C7: a token issued at time t carries expiry t + 24 hours: verifying it at
any time at or after that fails with ExpiredToken; a token whose signature does
not match its payload, or an undecodable token, fails with InvalidToken; and
verifying the unmodified token before expiry succeeds, returning exactly the
admin_id, org_id and org_name it was issued for, plus the exp and iat
timestamps. -/
theorem C7_theorem (a o n : String) (t : Nat) :
    (∀ d : Nat, decode_token (t + JWT_EXPIRATION_HOURS * 3600 + d) (create_token a o n t) =
      .error .expiredToken) ∧
    (∀ (fs : List (String × JVal)) (m tv : Nat), m ≠ signFields JWT_SECRET fs →
      decode_token tv (.jwt fs m) = .error .invalidToken) ∧
    (∀ (g : String) (tv : Nat), decode_token tv (.garbage g) = .error .invalidToken) ∧
    (∀ tv : Nat, tv < t + JWT_EXPIRATION_HOURS * 3600 →
      ∃ claims, decode_token tv (create_token a o n t) = .ok claims ∧
        lookupField claims "admin_id" = some (.str a) ∧
        lookupField claims "org_id" = some (.str o) ∧
        lookupField claims "org_name" = some (.str n) ∧
        lookupField claims "exp" = some (.num (t + JWT_EXPIRATION_HOURS * 3600)) ∧
        lookupField claims "iat" = some (.num t)) := by
  refine ⟨?_, ?_, ?_, ?_⟩
  · intro d
    rw [decode_create, if_pos (by omega)]
  · intro fs m tv hm
    simp only [decode_token]
    rw [if_pos hm]
  · intro g tv
    rfl
  · intro tv htv
    refine ⟨[("admin_id", .str a), ("org_id", .str o), ("org_name", .str n),
      ("exp", .num (t + JWT_EXPIRATION_HOURS * 3600)), ("iat", .num t)],
      ?_, rfl, rfl, rfl, rfl, rfl⟩
    rw [decode_create, if_neg (by omega)]

/-- C7 witness: a concrete token issued at time 1000 expires exactly at
1000 + 86400 and round-trips before expiry. -/
theorem C7_witness :
    decode_token (1000 + JWT_EXPIRATION_HOURS * 3600 + 0)
      (create_token "0" "1" "Acme Inc" 1000) = .error .expiredToken ∧
    decode_token 5 (.jwt [] 0) = .error .invalidToken ∧
    decode_token 5 (.garbage "not-a-jwt") = .error .invalidToken ∧
    (∃ claims, decode_token 1000 (create_token "0" "1" "Acme Inc" 1000) = .ok claims ∧
      lookupField claims "admin_id" = some (.str "0") ∧
      lookupField claims "org_id" = some (.str "1") ∧
      lookupField claims "org_name" = some (.str "Acme Inc") ∧
      lookupField claims "exp" = some (.num (1000 + JWT_EXPIRATION_HOURS * 3600)) ∧
      lookupField claims "iat" = some (.num 1000)) := by
  have h := C7_theorem "0" "1" "Acme Inc" 1000
  exact ⟨h.1 0, h.2.1 [] 0 5 (by decide), h.2.2.1 "not-a-jwt" 5, h.2.2.2 1000 (by decide)⟩

/-- C3 counterexample: renaming "Acme Inc" to "ACME INC" (different name, same
derived partition name) succeeds, yet after the rename the partition named by
the new derived name does not exist at all — the old metadata document was not
preserved in the new partition, because the copy targeted the same collection
that was then dropped. -/
theorem C3_counterexample :
    getPartition exS.partitions "org_acme_inc" = some [exMeta] ∧
    (update_organization 9 "Acme Inc" ⟨"ACME INC", "x@y.zz", "password"⟩
      ⟨"0", "1", "Acme Inc"⟩ exS).2 =
      .ok ⟨1, "ACME INC", "org_acme_inc", "x@y.zz", 1, some 9⟩ ∧
    getPartition (update_organization 9 "Acme Inc" ⟨"ACME INC", "x@y.zz", "password"⟩
      ⟨"0", "1", "Acme Inc"⟩ exS).1.partitions (deriveCollectionName "ACME INC") = none :=
  ⟨rfl, rfl, rfl⟩

/-- C3 (amended): for a successful UpdateTenant that changes the name and whose
new derived partition name differs from the old partition's name, every
document of the old partition reappears in the new partition in order, with
the storage id stripped and the tenant-name field rewritten exactly on
metadata-typed documents (all other fields unchanged), and the old partition
is dropped; when the new name equals the old one, the partitions are left
completely untouched. -/
theorem C3_theorem (now : Nat) (old_name : String) (data : OrganizationUpdate)
    (payload : AdminPayload) (s : DB) (org : OrgRec)
    (hp : payload.org_name = old_name)
    (ho : findOrgByName s.orgs old_name = some org) :
    (data.organization_name = old_name →
      (update_organization now old_name data payload s).1.partitions = s.partitions) ∧
    (data.organization_name ≠ old_name →
      findOrgByName s.orgs data.organization_name = none →
      deriveCollectionName data.organization_name ≠ org.collection_name →
      getPartition (update_organization now old_name data payload s).1.partitions
        org.collection_name = none ∧
      ((getPartition (update_organization now old_name data payload s).1.partitions
          (deriveCollectionName data.organization_name)).getD []).map stripId =
        ((getPartition s.partitions
          (deriveCollectionName data.organization_name)).getD []).map stripId ++
        ((getPartition s.partitions org.collection_name).getD []).map
          (fun d => if d.typ = some "metadata"
            then { d with id := none, orgName := some data.organization_name }
            else { d with id := none })) := by
  constructor
  · intro hEq
    rw [update_result_fst_same now old_name data payload s org hp ho hEq]
  · intro hNe hd2 hcoll
    rw [update_result_fst_rename now old_name data payload s org hp ho hNe hd2]
    constructor
    · exact getPartition_dropColl_self _ _
    · rw [getPartition_dropColl_other _ _ _ hcoll]
      rw [getPartition_migrateAll_self]
      congr 1
      exact List.map_congr_left (fun d _ => migrateDoc_eq data.organization_name d)

/-- C3 witness: renaming "Acme Inc" to "Gamma Co" migrates the metadata
document (retagged, id stripped) into `org_gamma_co` and drops `org_acme_inc`. -/
theorem C3_witness :
    getPartition (update_organization 9 "Acme Inc" ⟨"Gamma Co", "a@acme.com", "secret1"⟩
      ⟨"0", "1", "Acme Inc"⟩ exS).1.partitions "org_acme_inc" = none ∧
    ((getPartition (update_organization 9 "Acme Inc" ⟨"Gamma Co", "a@acme.com", "secret1"⟩
        ⟨"0", "1", "Acme Inc"⟩ exS).1.partitions
        (deriveCollectionName "Gamma Co")).getD []).map stripId =
      ((getPartition exS.partitions (deriveCollectionName "Gamma Co")).getD []).map stripId ++
      ((getPartition exS.partitions "org_acme_inc").getD []).map
        (fun d => if d.typ = some "metadata"
          then { d with id := none, orgName := some "Gamma Co" }
          else { d with id := none }) :=
  (C3_theorem 9 "Acme Inc" ⟨"Gamma Co", "a@acme.com", "secret1"⟩
    ⟨"0", "1", "Acme Inc"⟩ exS exOrg rfl rfl).2 (by decide) rfl (by decide)

/-- C4 counterexample: when the derived partition name already exists (tenant
"Acme Inc" is active and "ACME INC" derives the same partition name), a
CreateTenant satisfying the claim's stated preconditions (fresh exact name,
fresh email) succeeds but appends its metadata document to the existing
partition, which then holds two documents instead of exactly one. -/
theorem C4_counterexample :
    findOrgByName exS.orgs "ACME INC" = none ∧
    findAdminByEmail exS.admins "c@gamma.com" = none ∧
    (create_organization 9 ⟨"ACME INC", "c@gamma.com", "password"⟩ exS).2 =
      .ok ⟨4, "ACME INC", "org_acme_inc", "c@gamma.com", 9, none⟩ ∧
    getPartition (create_organization 9 ⟨"ACME INC", "c@gamma.com", "password"⟩
      exS).1.partitions "org_acme_inc" =
      some [exMeta, ⟨some 5, some "metadata", some "ACME INC", some 9, some "1.0", []⟩] ∧
    ((getPartition (create_organization 9 ⟨"ACME INC", "c@gamma.com", "password"⟩
      exS).1.partitions "org_acme_inc").getD []).length ≠ 1 :=
  ⟨rfl, rfl, rfl, rfl, by decide⟩

/-- C4 (amended): when no tenant has the exact name, no admin has the email,
and no partition with the derived name exists yet, CreateTenant inserts the
admin (hashed password, never the plaintext) with the first fresh id, then the
tenant record referencing that admin id, with the derived partition name and
updated_at null; the partition is created containing exactly the one metadata
document (type metadata, tenant name, initialization timestamp, schema version
"1.0"), and the composed view is returned. -/
theorem C4_theorem (now : Nat) (data : OrganizationCreate) (s : DB)
    (hN : findOrgByName s.orgs data.organization_name = none)
    (hE : findAdminByEmail s.admins data.email = none)
    (hP : getPartition s.partitions (deriveCollectionName data.organization_name) = none) :
    (create_organization now data s).2 =
      .ok ⟨s.nextId + 1, data.organization_name, deriveCollectionName data.organization_name,
           data.email, now, none⟩ ∧
    (create_organization now data s).1.admins =
      s.admins ++ [⟨s.nextId, data.email, hash_password data.password, now, none⟩] ∧
    hash_password data.password ≠ data.password ∧
    (create_organization now data s).1.orgs =
      s.orgs ++ [⟨s.nextId + 1, data.organization_name,
        deriveCollectionName data.organization_name, s.nextId, data.email, now, none⟩] ∧
    getPartition (create_organization now data s).1.partitions
      (deriveCollectionName data.organization_name) =
      some [⟨some (s.nextId + 2), some "metadata", some data.organization_name, some now,
            some "1.0", []⟩] := by
  refine ⟨?_, ?_, hash_password_ne data.password, ?_, ?_⟩
  · rw [create_result_eq now data s hN hE]
  · rw [create_result_fst now data s hN hE]
  · rw [create_result_fst now data s hN hE]
  · rw [create_result_fst now data s hN hE]
    show getPartition (insertInto s.partitions _ _) _ = _
    rw [getPartition_insertInto_self, hP]
    rfl

/-- C4 witness: creating "Gamma Co" on the example state yields the expected
view and a fresh partition with exactly the metadata document. -/
theorem C4_witness :
    (create_organization 9 ⟨"Gamma Co", "g@gamma.com", "secret77"⟩ exS).2 =
      .ok ⟨4, "Gamma Co", "org_gamma_co", "g@gamma.com", 9, none⟩ ∧
    getPartition (create_organization 9 ⟨"Gamma Co", "g@gamma.com", "secret77"⟩
      exS).1.partitions "org_gamma_co" =
      some [⟨some 5, some "metadata", some "Gamma Co", some 9, some "1.0", []⟩] :=
  ⟨(C4_theorem 9 ⟨"Gamma Co", "g@gamma.com", "secret77"⟩ exS rfl rfl rfl).1,
   (C4_theorem 9 ⟨"Gamma Co", "g@gamma.com", "secret77"⟩ exS rfl rfl rfl).2.2.2.2⟩

/-- C9: a successful UpdateTenant returns the view with the tenant's original
id and created_at, the new name, derived partition name and email, and
updated_at = now; the stored tenant record keeps id, created_at and admin_id
and takes the new fields; every other tenant record is untouched; the admin
record is always rewritten — email replaced, password re-hashed, updated_at
bumped — even when the caller submits the same email and password; every other
admin record is untouched. -/
theorem C9_theorem (now : Nat) (old_name : String) (data : OrganizationUpdate)
    (payload : AdminPayload) (s : DB) (org : OrgRec) (adm : AdminRec)
    (hIds : (s.orgs.map OrgRec.id).Nodup)
    (hp : payload.org_name = old_name)
    (ho : findOrgByName s.orgs old_name = some org)
    (hd : data.organization_name = old_name ∨
      findOrgByName s.orgs data.organization_name = none)
    (hadm : s.admins.find? (fun a => a.id == org.admin_id) = some adm) :
    (update_organization now old_name data payload s).2 =
      .ok ⟨org.id, data.organization_name, deriveCollectionName data.organization_name,
           data.email, org.created_at, some now⟩ ∧
    (∃ o' ∈ (update_organization now old_name data payload s).1.orgs,
      o'.id = org.id ∧ o'.created_at = org.created_at ∧ o'.admin_id = org.admin_id ∧
      o'.organization_name = data.organization_name ∧
      o'.collection_name = deriveCollectionName data.organization_name ∧
      o'.admin_email = data.email ∧ o'.updated_at = some now) ∧
    (∀ o' ∈ (update_organization now old_name data payload s).1.orgs,
      o'.id ≠ org.id → o' ∈ s.orgs) ∧
    (∃ a' ∈ (update_organization now old_name data payload s).1.admins,
      a'.id = adm.id ∧ a'.created_at = adm.created_at ∧ a'.email = data.email ∧
      a'.password_hash = hash_password data.password ∧ a'.updated_at = some now) ∧
    (∀ a' ∈ (update_organization now old_name data payload s).1.admins,
      a'.id ≠ org.admin_id → a' ∈ s.admins) := by
  have hAdm : (update_organization now old_name data payload s).1.admins =
      updateFirst (fun a => a.id == org.admin_id)
        (fun a =>
          { a with
            email := data.email,
            password_hash := hash_password data.password,
            updated_at := some now })
        s.admins := by
    by_cases hEq : data.organization_name = old_name
    · rw [update_result_fst_same now old_name data payload s org hp ho hEq]
    · rw [update_result_fst_rename now old_name data payload s org hp ho hEq
        (hd.resolve_left hEq)]
  have hOrgs : (update_organization now old_name data payload s).1.orgs =
      updateFirst (fun o => o.id == org.id)
        (fun o =>
          { o with
            organization_name := data.organization_name,
            collection_name := deriveCollectionName data.organization_name,
            admin_email := data.email,
            updated_at := some now })
        s.orgs := by
    by_cases hEq : data.organization_name = old_name
    · rw [update_result_fst_same now old_name data payload s org hp ho hEq]
    · rw [update_result_fst_rename now old_name data payload s org hp ho hEq
        (hd.resolve_left hEq)]
  have hSnd : (update_organization now old_name data payload s).2 =
      .ok ⟨org.id, data.organization_name, deriveCollectionName data.organization_name,
           data.email, org.created_at, some now⟩ := by
    by_cases hEq : data.organization_name = old_name
    · exact update_result_snd_same now old_name data payload s org hp ho hEq
    · exact update_result_snd_rename now old_name data payload s org hp ho hEq
        (hd.resolve_left hEq)
  obtain ⟨l1, l2, hl, hl1⟩ := mem_decomp_of_nodup_map OrgRec.id hIds (findOrgByName_mem ho)
  have hl1' : ∀ x ∈ l1, ¬ ((fun o : OrgRec => o.id == org.id) x) = true := by
    intro x hx
    simpa using hl1 x hx
  have hupO : updateFirst (fun o => o.id == org.id)
      (fun o =>
        { o with
          organization_name := data.organization_name,
          collection_name := deriveCollectionName data.organization_name,
          admin_email := data.email,
          updated_at := some now })
      s.orgs =
      l1 ++ ({ org with
        organization_name := data.organization_name,
        collection_name := deriveCollectionName data.organization_name,
        admin_email := data.email,
        updated_at := some now } : OrgRec) :: l2 := by
    rw [hl]
    exact updateFirst_append_cons _ _ _ _ _ hl1' (by simp)
  obtain ⟨la1, la2, hla, hla1, hpadm⟩ := find?_decomp hadm
  have hupA : updateFirst (fun a => a.id == org.admin_id)
      (fun a =>
        { a with
          email := data.email,
          password_hash := hash_password data.password,
          updated_at := some now })
      s.admins =
      la1 ++ ({ adm with
        email := data.email,
        password_hash := hash_password data.password,
        updated_at := some now } : AdminRec) :: la2 := by
    rw [hla]
    exact updateFirst_append_cons _ _ _ _ _ hla1 hpadm
  have hadmid : adm.id = org.admin_id := by simpa using hpadm
  refine ⟨hSnd, ?_, ?_, ?_, ?_⟩
  · rw [hOrgs, hupO]
    exact ⟨_, List.mem_append_right _ (List.mem_cons_self _ _),
      rfl, rfl, rfl, rfl, rfl, rfl, rfl⟩
  · rw [hOrgs, hupO]
    intro o' ho' hne
    rcases List.mem_append.mp ho' with h1 | h1
    · rw [hl]
      exact List.mem_append_left _ h1
    · rcases List.mem_cons.mp h1 with rfl | h1
      · exact absurd rfl hne
      · rw [hl]
        exact List.mem_append_right _ (List.mem_cons_of_mem _ h1)
  · rw [hAdm, hupA]
    exact ⟨_, List.mem_append_right _ (List.mem_cons_self _ _), rfl, rfl, rfl, rfl, rfl⟩
  · rw [hAdm, hupA]
    intro a' ha' hne
    rcases List.mem_append.mp ha' with h1 | h1
    · rw [hla]
      exact List.mem_append_left _ h1
    · rcases List.mem_cons.mp h1 with rfl | h1
      · exact absurd hadmid hne
      · rw [hla]
        exact List.mem_append_right _ (List.mem_cons_of_mem _ h1)

/-- C9 witness: updating "Acme Inc" while resubmitting the identical email and
password still bumps updated_at and rewrites the stored hash. -/
theorem C9_witness :
    (update_organization 9 "Acme Inc" ⟨"Acme Inc", "a@acme.com", "secret1"⟩
      ⟨"0", "1", "Acme Inc"⟩ exS).2 =
      .ok ⟨1, "Acme Inc", "org_acme_inc", "a@acme.com", 1, some 9⟩ ∧
    (∃ a' ∈ (update_organization 9 "Acme Inc" ⟨"Acme Inc", "a@acme.com", "secret1"⟩
        ⟨"0", "1", "Acme Inc"⟩ exS).1.admins,
      a'.id = exAdmin.id ∧ a'.created_at = exAdmin.created_at ∧ a'.email = "a@acme.com" ∧
      a'.password_hash = hash_password "secret1" ∧ a'.updated_at = some 9) :=
  ⟨(C9_theorem 9 "Acme Inc" ⟨"Acme Inc", "a@acme.com", "secret1"⟩ ⟨"0", "1", "Acme Inc"⟩
      exS exOrg exAdmin (by decide) rfl rfl (Or.inl rfl) rfl).1,
   (C9_theorem 9 "Acme Inc" ⟨"Acme Inc", "a@acme.com", "secret1"⟩ ⟨"0", "1", "Acme Inc"⟩
      exS exOrg exAdmin (by decide) rfl rfl (Or.inl rfl) rfl).2.2.2.1⟩

/-- C5: UpdateTenant and DeleteTenant fail with Forbidden whenever the bearer
claims name a different organization, for every state — in particular also when
the target tenant does not exist, so the ownership check precedes the existence
check; and the DuplicateName check fires exactly when the new name differs from
the old one and is already taken. -/
theorem C5_theorem :
    (∀ (now : Nat) (old_name : String) (data : OrganizationUpdate)
        (payload : AdminPayload) (s : DB),
      payload.org_name ≠ old_name →
      update_organization now old_name data payload s = (s, .error .forbidden)) ∧
    (∀ (org_name : String) (payload : AdminPayload) (s : DB),
      payload.org_name ≠ org_name →
      delete_organization org_name payload s = (s, .error .forbidden)) ∧
    (∀ (now : Nat) (old_name : String) (data : OrganizationUpdate)
        (payload : AdminPayload) (s : DB),
      data.organization_name = old_name →
      (update_organization now old_name data payload s).2 ≠ .error .duplicateName) ∧
    (∀ (now : Nat) (old_name : String) (data : OrganizationUpdate)
        (payload : AdminPayload) (s : DB) (org org2 : OrgRec),
      payload.org_name = old_name →
      findOrgByName s.orgs old_name = some org →
      data.organization_name ≠ old_name →
      findOrgByName s.orgs data.organization_name = some org2 →
      (update_organization now old_name data payload s).2 = .error .duplicateName) := by
  refine ⟨?_, ?_, ?_, ?_⟩
  · exact fun now old_name data payload s h => update_result_forbidden now old_name data payload s h
  · exact fun org_name payload s h => delete_result_forbidden org_name payload s h
  · intro now old_name data payload s hEq
    by_cases hpn : payload.org_name = old_name
    · cases hfo : findOrgByName s.orgs old_name with
      | none =>
        rw [update_result_notfound now old_name data payload s hpn hfo]
        simp
      | some org =>
        rw [update_result_snd_same now old_name data payload s org hpn hfo hEq]
        simp
    · rw [update_result_forbidden now old_name data payload s hpn]
      simp
  · intro now old_name data payload s org org2 hpn hfo hne hdup
    rw [update_result_dup now old_name data payload s org org2 hpn hfo hne hdup]

/-- C5 witness: concrete runs exercising all four conjuncts on the example
states. -/
theorem C5_witness :
    update_organization 9 "Acme Inc" ⟨"Acme Inc", "a@acme.com", "secret1"⟩
      ⟨"0", "1", "Other"⟩ exS = (exS, .error .forbidden) ∧
    delete_organization "Acme Inc" ⟨"0", "1", "Other"⟩ exS = (exS, .error .forbidden) ∧
    (update_organization 9 "Acme Inc" ⟨"Acme Inc", "x@y.zz", "password"⟩
      ⟨"0", "1", "Acme Inc"⟩ exS).2 ≠ .error .duplicateName ∧
    (update_organization 9 "Acme Inc" ⟨"Beta LLC", "a@acme.com", "secret1"⟩
      ⟨"0", "1", "Acme Inc"⟩ exS2).2 = .error .duplicateName :=
  ⟨C5_theorem.1 9 "Acme Inc" _ _ exS (by decide),
   C5_theorem.2.1 "Acme Inc" _ exS (by decide),
   C5_theorem.2.2.1 9 "Acme Inc" _ _ exS rfl,
   C5_theorem.2.2.2 9 "Acme Inc" _ _ exS2 exOrg exOrgB rfl rfl (by decide) rfl⟩

/-- C6 counterexample: with tenant "Acme Inc" active, CreateTenant for
"ACME INC" — a different string with the same normalized form — does not fail
with DuplicateName but succeeds, because the duplicate check compares exact
names only. -/
theorem C6_counterexample :
    deriveCollectionName "ACME INC" = deriveCollectionName "Acme Inc" ∧
    (∃ o ∈ exS.orgs, o.organization_name = "Acme Inc") ∧
    "ACME INC" ≠ "Acme Inc" ∧
    (create_organization 9 ⟨"ACME INC", "c@gamma.com", "password"⟩ exS).2 =
      .ok ⟨4, "ACME INC", "org_acme_inc", "c@gamma.com", 9, none⟩ :=
  ⟨by decide, ⟨exOrg, by decide, rfl⟩, by decide, rfl⟩

/-- C6 (amended): CreateTenant fails with DuplicateName exactly when an active
tenant has the very same (unnormalized) name; a name that merely normalizes to
the same partition name is not rejected. -/
theorem C6_theorem (now : Nat) (data : OrganizationCreate) (s : DB) :
    ((∃ o ∈ s.orgs, o.organization_name = data.organization_name) →
      (create_organization now data s).2 = .error .duplicateName) ∧
    (findOrgByName s.orgs data.organization_name = none →
      (create_organization now data s).2 ≠ .error .duplicateName) := by
  constructor
  · intro hex
    obtain ⟨org, horg⟩ := find_org_of_exists hex
    rw [create_result_dupname now data s org horg]
  · intro hnone
    cases hfa : findAdminByEmail s.admins data.email with
    | some a =>
      rw [create_result_dupemail now data s a hnone hfa]
      simp
    | none =>
      rw [create_result_eq now data s hnone hfa]
      simp

/-- C6 witness: an exact duplicate name is rejected, a fresh name is not. -/
theorem C6_witness :
    (create_organization 9 ⟨"Acme Inc", "c@x.com", "password"⟩ exS).2 =
      .error .duplicateName ∧
    (create_organization 9 ⟨"Gamma Co", "c@x.com", "password"⟩ exS).2 ≠
      .error .duplicateName :=
  ⟨(C6_theorem 9 _ exS).1 ⟨exOrg, by decide, rfl⟩,
   (C6_theorem 9 _ exS).2 (by decide)⟩

/-- C8: Login fails with InvalidCredentials when no admin has the email, fails
with the very same InvalidCredentials error when the password does not verify
(the two cases are indistinguishable by error code), fails with NotFound when
no organization references the admin as owner, and otherwise returns the token
issued for (admin id, org id, org name) together with the org name and the
email. -/
theorem C8_theorem (now : Nat) (data : AdminLogin) (s : DB) :
    (findAdminByEmail s.admins data.email = none →
      login now data s = .error .invalidCredentials) ∧
    (∀ admin, findAdminByEmail s.admins data.email = some admin →
      verify_password data.password admin.password_hash = false →
      login now data s = .error .invalidCredentials) ∧
    (∀ admin, findAdminByEmail s.admins data.email = some admin →
      verify_password data.password admin.password_hash = true →
      s.orgs.find? (fun o => o.admin_id == admin.id) = none →
      login now data s = .error .notFound) ∧
    (∀ admin org, findAdminByEmail s.admins data.email = some admin →
      verify_password data.password admin.password_hash = true →
      s.orgs.find? (fun o => o.admin_id == admin.id) = some org →
      login now data s = .ok ⟨create_token (toString admin.id) (toString org.id)
        org.organization_name now, "bearer", org.organization_name, data.email⟩) :=
  ⟨fun hA => login_result_noadmin now data s hA,
   fun admin hA hV => login_result_badpw now data s admin hA hV,
   fun admin hA hV hO => login_result_orphan now data s admin hA hV hO,
   fun admin org hA hV hO => login_result_ok now data s admin org hA hV hO⟩

/-- C8 witness: the three failure shapes and the success shape on the example
state. -/
theorem C8_witness :
    login 9 ⟨"missing@x.com", "whatever"⟩ exS = .error .invalidCredentials ∧
    login 9 ⟨"a@acme.com", "wrongpass"⟩ exS = .error .invalidCredentials ∧
    login 9 ⟨"a@acme.com", "secret1"⟩ exS =
      .ok ⟨create_token "0" "1" "Acme Inc" 9, "bearer", "Acme Inc", "a@acme.com"⟩ :=
  ⟨(C8_theorem 9 _ exS).1 rfl,
   (C8_theorem 9 _ exS).2.1 exAdmin rfl (by decide),
   (C8_theorem 9 _ exS).2.2.2 exAdmin exOrg rfl (by decide) rfl⟩

/-- C10: whenever CreateTenant, UpdateTenant or DeleteTenant returns one of the
named errors, the returned state is exactly the input state: every check
precedes the first write. -/
theorem C10_theorem :
    (∀ (now : Nat) (data : OrganizationCreate) (s : DB) (e : ApiError),
      (create_organization now data s).2 = .error e →
      (create_organization now data s).1 = s) ∧
    (∀ (now : Nat) (old_name : String) (data : OrganizationUpdate)
        (payload : AdminPayload) (s : DB) (e : ApiError),
      (update_organization now old_name data payload s).2 = .error e →
      (update_organization now old_name data payload s).1 = s) ∧
    (∀ (org_name : String) (payload : AdminPayload) (s : DB) (e : ApiError),
      (delete_organization org_name payload s).2 = .error e →
      (delete_organization org_name payload s).1 = s) := by
  refine ⟨?_, ?_, ?_⟩
  · intro now data s e h
    cases hfo : findOrgByName s.orgs data.organization_name with
    | some org => rw [create_result_dupname now data s org hfo]
    | none =>
      cases hfa : findAdminByEmail s.admins data.email with
      | some a => rw [create_result_dupemail now data s a hfo hfa]
      | none =>
        rw [create_result_eq now data s hfo hfa] at h
        simp at h
  · intro now old_name data payload s e h
    by_cases hpn : payload.org_name = old_name
    · cases hfo : findOrgByName s.orgs old_name with
      | none => rw [update_result_notfound now old_name data payload s hpn hfo]
      | some org =>
        by_cases hEq : data.organization_name = old_name
        · rw [update_result_snd_same now old_name data payload s org hpn hfo hEq] at h
          simp at h
        · cases hdup : findOrgByName s.orgs data.organization_name with
          | some org2 =>
            rw [update_result_dup now old_name data payload s org org2 hpn hfo hEq hdup]
          | none =>
            rw [update_result_snd_rename now old_name data payload s org hpn hfo hEq hdup] at h
            simp at h
    · rw [update_result_forbidden now old_name data payload s hpn]
  · intro org_name payload s e h
    by_cases hpn : payload.org_name = org_name
    · cases hfo : findOrgByName s.orgs org_name with
      | none => rw [delete_result_notfound org_name payload s hpn hfo]
      | some org =>
        rw [delete_result_snd org_name payload s org hpn hfo] at h
        simp at h
    · rw [delete_result_forbidden org_name payload s hpn]

/-- C10 witness: concrete failing calls leave the example states untouched. -/
theorem C10_witness :
    (create_organization 9 ⟨"Acme Inc", "c@x.com", "password"⟩ exS).1 = exS ∧
    (update_organization 9 "Acme Inc" ⟨"Acme Inc", "a@acme.com", "secret1"⟩
      ⟨"0", "1", "Other"⟩ exS).1 = exS ∧
    (delete_organization "Gamma Co" ⟨"0", "1", "Gamma Co"⟩ exS).1 = exS :=
  ⟨C10_theorem.1 9 _ exS .duplicateName rfl,
   C10_theorem.2.1 9 "Acme Inc" _ _ exS .forbidden rfl,
   C10_theorem.2.2 "Gamma Co" _ exS .notFound rfl⟩

/-- C1 counterexample: from a state with two tenants whose admins have distinct
emails, a successful UpdateTenant that sets the first tenant's admin email to
the second admin's email leaves two admins sharing an email — UpdateTenant
performs no duplicate-email check, so admin-email uniqueness is not an
invariant of every operation. -/
theorem C1_counterexample :
    emailsNodup exS2 ∧
    (update_organization 9 "Acme Inc" ⟨"Acme Inc", "b@beta.com", "newpassword"⟩
      ⟨"0", "1", "Acme Inc"⟩ exS2).2 =
      .ok ⟨1, "Acme Inc", "org_acme_inc", "b@beta.com", 1, some 9⟩ ∧
    ¬ emailsNodup (update_organization 9 "Acme Inc"
      ⟨"Acme Inc", "b@beta.com", "newpassword"⟩ ⟨"0", "1", "Acme Inc"⟩ exS2).1 :=
  ⟨by decide, rfl, by decide⟩

/-- C1 (amended): admin-email uniqueness is preserved unconditionally by
CreateTenant and DeleteTenant (successful or failing), and by UpdateTenant
provided the submitted email is not already held by an admin other than the
target tenant's own admin (admin ids being distinct, as the store guarantees);
without that proviso UpdateTenant can break it. -/
theorem C1_theorem :
    (∀ (now : Nat) (data : OrganizationCreate) (s : DB),
      emailsNodup s → emailsNodup (create_organization now data s).1) ∧
    (∀ (org_name : String) (payload : AdminPayload) (s : DB),
      emailsNodup s → emailsNodup (delete_organization org_name payload s).1) ∧
    (∀ (now : Nat) (old_name : String) (data : OrganizationUpdate)
        (payload : AdminPayload) (s : DB) (org : OrgRec),
      emailsNodup s →
      (s.admins.map AdminRec.id).Nodup →
      findOrgByName s.orgs old_name = some org →
      (∀ a ∈ s.admins, a.email = data.email → a.id = org.admin_id) →
      emailsNodup (update_organization now old_name data payload s).1) ∧
    (∀ (now : Nat) (old_name : String) (data : OrganizationUpdate)
        (payload : AdminPayload) (s : DB),
      findOrgByName s.orgs old_name = none →
      emailsNodup s →
      emailsNodup (update_organization now old_name data payload s).1) := by
  refine ⟨?_, ?_, ?_, ?_⟩
  · intro now data s hN
    cases hfo : findOrgByName s.orgs data.organization_name with
    | some org => rw [create_result_dupname now data s org hfo]; exact hN
    | none =>
      cases hfa : findAdminByEmail s.admins data.email with
      | some a => rw [create_result_dupemail now data s a hfo hfa]; exact hN
      | none =>
        rw [create_result_fst now data s hfo hfa]
        show ((s.admins ++ [_]).map AdminRec.email).Nodup
        rw [List.map_append, List.map_cons, List.map_nil, nodup_append_singleton]
        exact ⟨fun hm => by
          obtain ⟨a, ha, hae⟩ := List.mem_map.mp hm
          exact (findAdminByEmail_eq_none _ _).mp hfa a ha hae, hN⟩
  · intro org_name payload s hN
    by_cases hpn : payload.org_name = org_name
    · cases hfo : findOrgByName s.orgs org_name with
      | none => rw [delete_result_notfound org_name payload s hpn hfo]; exact hN
      | some org =>
        rw [delete_result_fst org_name payload s org hpn hfo]
        exact eraseP_emails_nodup s.admins _ hN
    · rw [delete_result_forbidden org_name payload s hpn]; exact hN
  · intro now old_name data payload s org hN hIdsA hfo hFree
    by_cases hpn : payload.org_name = old_name
    · by_cases hEq : data.organization_name = old_name
      · rw [update_result_fst_same now old_name data payload s org hpn hfo hEq]
        exact updateFirst_emails_nodup s.admins org.admin_id data.email
          (hash_password data.password) now hN hIdsA hFree
      · cases hdup : findOrgByName s.orgs data.organization_name with
        | some org2 =>
          rw [update_result_dup now old_name data payload s org org2 hpn hfo hEq hdup]
          exact hN
        | none =>
          rw [update_result_fst_rename now old_name data payload s org hpn hfo hEq hdup]
          exact updateFirst_emails_nodup s.admins org.admin_id data.email
            (hash_password data.password) now hN hIdsA hFree
    · rw [update_result_forbidden now old_name data payload s hpn]; exact hN
  · intro now old_name data payload s hfo hN
    by_cases hpn : payload.org_name = old_name
    · rw [update_result_notfound now old_name data payload s hpn hfo]; exact hN
    · rw [update_result_forbidden now old_name data payload s hpn]; exact hN

/-- C1 witness: a create with a fresh email and an update that resubmits the
tenant's own admin email both preserve email uniqueness on the two-tenant
example state. -/
theorem C1_witness :
    emailsNodup (create_organization 9 ⟨"Gamma Co", "g@gamma.com", "secret77"⟩ exS2).1 ∧
    emailsNodup (update_organization 9 "Acme Inc"
      ⟨"Acme Inc", "a@acme.com", "secret1"⟩ ⟨"0", "1", "Acme Inc"⟩ exS2).1 :=
  ⟨C1_theorem.1 9 _ exS2 (by decide),
   C1_theorem.2.2.1 9 "Acme Inc" _ _ exS2 exOrg (by decide) (by decide) rfl (by decide)⟩

/-- C2 counterexample: from the consistent one-tenant state, renaming
"Acme Inc" to "ACME INC" — a different name with the same derived partition
name — succeeds, yet afterwards the tenant's partition count is zero: the
migration copies the documents into the same collection and then drops it. -/
theorem C2_counterexample :
    Inv exS ∧
    (update_organization 9 "Acme Inc" ⟨"ACME INC", "a@acme.com", "secret1"⟩
      ⟨"0", "1", "Acme Inc"⟩ exS).2 =
      .ok ⟨1, "ACME INC", "org_acme_inc", "a@acme.com", 1, some 9⟩ ∧
    (∃ o ∈ (update_organization 9 "Acme Inc" ⟨"ACME INC", "a@acme.com", "secret1"⟩
      ⟨"0", "1", "Acme Inc"⟩ exS).1.orgs,
      (partitionNames (update_organization 9 "Acme Inc"
        ⟨"ACME INC", "a@acme.com", "secret1"⟩ ⟨"0", "1", "Acme Inc"⟩ exS).1).count
        o.collection_name = 0) :=
  ⟨by decide, rfl, by decide⟩

/-- C2 (amended): partition correspondence — every tenant's partition name
matched by exactly one partition, no orphan partitions — is preserved by
successful CreateTenant whose derived partition name is not already a tenant's
partition name, by successful UpdateTenant whose new name either equals the old
one or derives a partition name used by no tenant, and by every successful
DeleteTenant (which leaves zero partitions named by the deleted tenant's
partition name); the state invariant `Inv` carries the correspondence. -/
theorem C2_theorem :
    (∀ (now : Nat) (data : OrganizationCreate) (s : DB),
      Inv s →
      (∀ o ∈ s.orgs, o.collection_name ≠ deriveCollectionName data.organization_name) →
      findOrgByName s.orgs data.organization_name = none →
      findAdminByEmail s.admins data.email = none →
      Inv (create_organization now data s).1 ∧
      ∀ o ∈ (create_organization now data s).1.orgs,
        (partitionNames (create_organization now data s).1).count o.collection_name = 1) ∧
    (∀ (now : Nat) (old_name : String) (data : OrganizationUpdate)
        (payload : AdminPayload) (s : DB) (org : OrgRec),
      Inv s →
      payload.org_name = old_name →
      findOrgByName s.orgs old_name = some org →
      (data.organization_name = old_name ∨
        ∀ o ∈ s.orgs, o.collection_name ≠ deriveCollectionName data.organization_name) →
      Inv (update_organization now old_name data payload s).1 ∧
      ∀ o ∈ (update_organization now old_name data payload s).1.orgs,
        (partitionNames (update_organization now old_name data payload s).1).count
          o.collection_name = 1) ∧
    (∀ (org_name : String) (payload : AdminPayload) (s : DB) (org : OrgRec),
      Inv s →
      payload.org_name = org_name →
      findOrgByName s.orgs org_name = some org →
      Inv (delete_organization org_name payload s).1 ∧
      (partitionNames (delete_organization org_name payload s).1).count
        org.collection_name = 0 ∧
      ∀ o ∈ (delete_organization org_name payload s).1.orgs,
        (partitionNames (delete_organization org_name payload s).1).count
          o.collection_name = 1) := by
  refine ⟨?_, ?_, ?_⟩
  · intro now data s hInv hFresh hN hE
    have h := create_preserves_inv now data s hInv hFresh hN hE
    exact ⟨h, inv_count_one _ h⟩
  · intro now old_name data payload s org hInv hp ho hAm
    have h := update_preserves_inv now old_name data payload s org hInv hp ho hAm
    exact ⟨h, inv_count_one _ h⟩
  · intro org_name payload s org hInv hp ho
    obtain ⟨h, hnot⟩ := delete_preserves_inv org_name payload s org hInv hp ho
    exact ⟨h, List.count_eq_zero.mpr hnot, inv_count_one _ h⟩

/-- C2 witness: a fresh create, a proper rename, and a delete on the example
state, each preserving the correspondence invariant. -/
theorem C2_witness :
    (Inv (create_organization 9 ⟨"Gamma Co", "g@gamma.com", "secret77"⟩ exS).1 ∧
      ∀ o ∈ (create_organization 9 ⟨"Gamma Co", "g@gamma.com", "secret77"⟩ exS).1.orgs,
        (partitionNames (create_organization 9 ⟨"Gamma Co", "g@gamma.com", "secret77"⟩
          exS).1).count o.collection_name = 1) ∧
    Inv (update_organization 9 "Acme Inc" ⟨"Gamma Co", "a@acme.com", "secret1"⟩
      ⟨"0", "1", "Acme Inc"⟩ exS).1 ∧
    (partitionNames (delete_organization "Acme Inc" ⟨"0", "1", "Acme Inc"⟩ exS).1).count
      "org_acme_inc" = 0 :=
  ⟨C2_theorem.1 9 _ exS (by decide) (by decide) (by decide) (by decide),
   (C2_theorem.2.1 9 "Acme Inc" _ _ exS exOrg (by decide) rfl rfl
     (Or.inr (by decide))).1,
   ((C2_theorem.2.2 "Acme Inc" _ exS exOrg (by decide) rfl rfl).2.1)⟩

end OrgMgmt
